import Mathlib

/-!
Verification development for the rspamd HTML content processor
(`src/libserver/html/html.cxx`).  The definitions below are a shallow
embedding of the C/C++ source: bytes are `Nat` (0..255), pointers into the
input buffer are indices, in-place mutation becomes explicit state passing,
and arena-allocated records (tags, tree nodes, urls, blocks) live in dense
lists indexed by allocation order.  External collaborators that are out of
scope for the repository (entity decoder, URL parser, CSS value parser,
image detector, base64, unicode helpers) are passed in as an explicit
record of functions `ExternalFns`, mirroring the fact that the source only
consumes their interfaces.
-/

namespace RspamdHtml

/-- Byte of the input buffer. -/
abbrev Byte := Nat

/-- `g_ascii_isspace`: matches glib's ASCII space set. -/
def g_ascii_isspace (b : Byte) : Bool :=
  b == 32 || b == 9 || b == 10 || b == 13 || b == 11 || b == 12

/-- `g_ascii_isalpha`. -/
def g_ascii_isalpha (b : Byte) : Bool :=
  (65 ≤ b && b ≤ 90) || (97 ≤ b && b ≤ 122)

/-- `g_ascii_isdigit`. -/
def g_ascii_isdigit (b : Byte) : Bool :=
  48 ≤ b && b ≤ 57

/-- `g_ascii_isalnum`. -/
def g_ascii_isalnum (b : Byte) : Bool :=
  g_ascii_isalpha b || g_ascii_isdigit b

/-- `g_ascii_isgraph`: printable, non-space ASCII. -/
def g_ascii_isgraph (b : Byte) : Bool :=
  33 ≤ b && b ≤ 126

/-- `g_ascii_tolower` on one byte. -/
def g_ascii_tolower (b : Byte) : Byte :=
  if 65 ≤ b && b ≤ 90 then b + 32 else b

/-- Helper: byte list of a Lean string literal (ASCII inputs only). -/
def strBytes (s : String) : List Byte :=
  s.data.map (fun ch => ch.toNat)

/-- `html_component_type` from `html_tag.hxx` (closed enumeration). -/
inductive html_component_type where
  | NAME | HREF | COLOR | BGCOLOR | STYLE | CLASS
  | WIDTH | HEIGHT | SIZE | REL | ALT
deriving DecidableEq, Repr

/-- `html_components_map` from `html.cxx` lines 50-65: attribute token →
component kind; `href`, `src` and `action` all map to `HREF`. -/
def html_components_map : List (List Byte × html_component_type) :=
  [ (strBytes "name",   html_component_type.NAME)
  , (strBytes "href",   html_component_type.HREF)
  , (strBytes "src",    html_component_type.HREF)
  , (strBytes "action", html_component_type.HREF)
  , (strBytes "color",  html_component_type.COLOR)
  , (strBytes "bgcolor", html_component_type.BGCOLOR)
  , (strBytes "style",  html_component_type.STYLE)
  , (strBytes "class",  html_component_type.CLASS)
  , (strBytes "width",  html_component_type.WIDTH)
  , (strBytes "height", html_component_type.HEIGHT)
  , (strBytes "size",   html_component_type.SIZE)
  , (strBytes "rel",    html_component_type.REL)
  , (strBytes "alt",    html_component_type.ALT) ]

/-- Lookup in the frozen components map (exact byte equality, as the
`frozen::unordered_map::find` call does). -/
def componentsMapFind (key : List Byte) : Option html_component_type :=
  (html_components_map.find? (fun kv => kv.fst = key)).map (·.snd)

/-- Per-tag flags (`FL_*`) and static class flags (`CM_*`), one boolean per
bit of the C `flags` bitset. -/
structure TagFlags where
  cm_inline : Bool := false
  cm_empty : Bool := false
  cm_head : Bool := false
  cm_unknown : Bool := false
  cm_unique : Bool := false
  fl_block : Bool := false
  fl_href : Bool := false
  fl_closing : Bool := false
  fl_closed : Bool := false
  fl_ignore : Bool := false
  fl_broken : Bool := false
  fl_image : Bool := false
deriving DecidableEq, Repr

/-- Content-level diagnostic flags (`RSPAMD_HTML_FLAG_*`), one boolean per
bit. -/
structure HcFlags where
  bad_start : Bool := false
  xml : Bool := false
  unbalanced : Bool := false
  bad_elements : Bool := false
  unknown_elements : Bool := false
  duplicate_elements : Bool := false
  too_many_tags : Bool := false
  has_data_urls : Bool := false
deriving DecidableEq, Repr

/-- The tag name as the lexer tracks it: first a borrowed slice of the
input (`std::string_view{in, 0}` then widened), after the registry lookup
an owned decoded/lowercased copy. -/
inductive TagName where
  | empty
  | slice (start len : Nat)
  | owned (s : List Byte)
deriving DecidableEq, Repr

/-- `struct html_tag` (html_tag.hxx united with the legacy C layout used by
the unconverted part of html.cxx: `params` is the ordered attribute list).
`parentNode` is the `GNode *parent` back-pointer, as a tree-arena index. -/
structure HtmlTag where
  id : Int := -1
  flags : TagFlags := {}
  name : TagName := TagName.empty
  params : List (html_component_type × List Byte) := []
  content_offset : Nat := 0
  content_length : Nat := 0
  parentNode : Option Nat := none
  extraUrl : Option Nat := none
  extraImage : Option Nat := none
  extraBlock : Option Nat := none
deriving DecidableEq, Repr

/-- States of the attribute lexer `parse_tag_content` (html.cxx 273-290). -/
inductive TagParserState where
  | parse_start
  | parse_name
  | parse_attr_name
  | parse_equal
  | parse_start_dquote
  | parse_dqvalue
  | parse_end_dquote
  | parse_start_squote
  | parse_sqvalue
  | parse_end_squote
  | parse_value
  | spaces_after_name
  | spaces_before_eq
  | spaces_after_eq
  | spaces_after_param
  | ignore_bad_tag
deriving DecidableEq, Repr

/-- `struct tag_content_parser_state` (html.cxx 253-264): the resumable
lexer environment {cur_state, saved_p, cur_component}; `saved_p` is an
index into the input buffer. -/
structure TagParserEnv where
  cur_state : TagParserState := TagParserState.parse_start
  saved_p : Option Nat := none
  cur_component : Option html_component_type := none
deriving DecidableEq, Repr

/-- External collaborator functions consumed by html.cxx through
interfaces only (spec section 1 lists them as out of scope).  Theorems
quantify over this record; witnesses instantiate it concretely. -/
structure ExternalFns where
  /-- `decode_html_entitles_inplace` / `rspamd_html_decode_entitles_inplace`:
  in-place entity decoding of a byte slice. -/
  decodeEntities : List Byte → List Byte := id
  /-- `rspamd_str_lc_utf8`: utf8 lowercasing used on tag names. -/
  lcUtf8 : List Byte → List Byte := id
  /-- `html_tags_defs.by_name`: the immutable tag registry (the header
  `html_tag_defs.hxx` is not part of the sources), name → (id, flags). -/
  tagDefsByName : List Byte → Option (Int × TagFlags) := fun _ => none

/-- Result of one per-byte invocation of the attribute lexer: the mutated
tag, the mutated content flags and the callee's final copy of the parser
environment (the value the source assigns at html.cxx:633). -/
structure TagParserResult where
  tag : HtmlTag
  hcFlags : HcFlags
  env : TagParserEnv
deriving DecidableEq, Repr

/-- Slice `[b, e)` of the input buffer. -/
def inputSlice (input : List Byte) (b e : Nat) : List Byte :=
  (input.drop b).take (e - b)

/-- `find_tag_component_name` (html.cxx 231-251): entity-decode a copy of
the attribute-name slice and look it up in the components map. -/
def find_tag_component_name (ext : ExternalFns) (input : List Byte)
    (b e : Nat) : Option html_component_type :=
  if e ≤ b then none
  else componentsMapFind (ext.decodeEntities (inputSlice input b e))

/-- The `store_tag_component` lambda of `parse_tag_content`
(html.cxx 301-320): if a component and a non-empty value slice are pending
and the component is not yet present in the tag's parameter map, insert the
entity-decoded copy of the value; repeated attributes are ignored.  Returns
the updated tag and the cleared (saved_p, cur_component) fields. -/
def store_tag_component (ext : ExternalFns) (input : List Byte) (i : Nat)
    (env : TagParserEnv) (tag : HtmlTag) : HtmlTag × TagParserEnv :=
  let tag' :=
    match env.saved_p, env.cur_component with
    | some sp, some comp =>
      if i > sp then
        if (tag.params.find? (fun kv => kv.fst = comp)).isNone then
          { tag with params :=
              tag.params ++ [(comp, ext.decodeEntities (inputSlice input sp i))] }
        else tag
      else tag
    | _, _ => tag
  (tag', { env with saved_p := none, cur_component := none })

/-- The backwards shrink loop of `parse_attr_name` (html.cxx 395-402 and
417-424): starting from `j`, step back while the byte is not alphanumeric
and the position is still above `saved_p`, then one character forward. -/
def attrNameShrink (input : List Byte) (sp : Nat) : Nat → Nat
  | 0 => 1
  | j + 1 =>
    if j + 1 > sp && !(g_ascii_isalnum (input.getD (j + 1) 0)) then
      attrNameShrink input sp j
    else
      j + 2

/-- `parse_tag_content` (html.cxx 266-634): one per-byte step of the
attribute lexer.  `i` is the position of the current byte (`in`); the
source receives `parser_env` BY VALUE, so the environment in the result is
the callee's local copy, not something the caller observes (see
`parse_tag_content_caller_env`). -/
def parse_tag_content (ext : ExternalFns) (input : List Byte) (i : Nat)
    (hcf : HcFlags) (tag : HtmlTag) (env : TagParserEnv) : TagParserResult :=
  let b := input.getD i 0
  match env.cur_state with
  | TagParserState.parse_start =>
    if !(g_ascii_isalpha b) && !(g_ascii_isspace b) then
      { tag := { tag with id := -1, flags := { tag.flags with fl_broken := true } },
        hcFlags := { hcf with bad_elements := true },
        env := { env with cur_state := TagParserState.ignore_bad_tag } }
    else if g_ascii_isalpha b then
      { tag := { tag with name := TagName.slice i 0 },
        hcFlags := hcf,
        env := { env with cur_state := TagParserState.parse_name } }
    else
      { tag := tag, hcFlags := hcf, env := env }
  | TagParserState.parse_name =>
    if g_ascii_isspace b || b == 62 || b == 47 then
      -- 62 = '>', 47 = '/'
      let tag := if b == 47 then
          { tag with flags := { tag.flags with fl_closed := true } }
        else tag
      let start := match tag.name with
        | TagName.slice s _ => s
        | _ => i
      let tag := { tag with name := TagName.slice start (i - start) }
      if i - start == 0 then
        { tag := { tag with id := -1, flags := { tag.flags with fl_broken := true } },
          hcFlags := { hcf with bad_elements := true },
          env := { env with cur_state := TagParserState.ignore_bad_tag } }
      else
        let decoded := ext.lcUtf8 (ext.decodeEntities (inputSlice input start i))
        let tag := { tag with name := TagName.owned decoded }
        match ext.tagDefsByName decoded with
        | none =>
          { tag := { tag with id := -1 },
            hcFlags := { hcf with unknown_elements := true },
            env := { env with cur_state := TagParserState.spaces_after_name } }
        | some (tid, tflags) =>
          -- note: the source overwrites `tag->flags` wholesale here
          { tag := { tag with id := tid, flags := tflags },
            hcFlags := hcf,
            env := { env with cur_state := TagParserState.spaces_after_name } }
    else
      { tag := tag, hcFlags := hcf, env := env }
  | TagParserState.parse_attr_name =>
    match env.saved_p with
    | none =>
      { tag := tag, hcFlags := hcf,
        env := { env with cur_state := TagParserState.ignore_bad_tag } }
    | some sp =>
      -- 61 = '=', 34 = '"', 47 = '/'
      if b == 61 then
        let comp := find_tag_component_name ext input sp i
        { tag := tag, hcFlags := hcf,
          env := { cur_state := TagParserState.parse_equal, saved_p := if comp.isNone then none else env.saved_p,
                   cur_component := comp } }
      else if b == 34 then
        let e := if i == 0 then 1 else attrNameShrink input sp (i - 1)
        let comp := find_tag_component_name ext input sp e
        { tag := tag, hcFlags := hcf,
          env := { cur_state := TagParserState.parse_start_dquote, saved_p := if comp.isNone then none else env.saved_p,
                   cur_component := comp } }
      else if g_ascii_isspace b then
        let comp := find_tag_component_name ext input sp i
        { tag := tag, hcFlags := hcf,
          env := { cur_state := TagParserState.spaces_before_eq, saved_p := if comp.isNone then none else env.saved_p,
                   cur_component := comp } }
      else if b == 47 then
        let comp := find_tag_component_name ext input sp i
        { tag := { tag with flags := { tag.flags with fl_closed := true } },
          hcFlags := hcf,
          env := { env with
                   saved_p := if comp.isNone then none else env.saved_p, cur_component := comp } }
      else if !(g_ascii_isgraph b) then
        let e := if i == 0 then 1 else attrNameShrink input sp (i - 1)
        let comp := find_tag_component_name ext input sp e
        { tag := tag, hcFlags := hcf,
          env := { cur_state := TagParserState.parse_value, saved_p := if comp.isNone then none else some (i + 1),
                   cur_component := comp } }
      else
        -- plain `return`: nothing recorded, state unchanged
        { tag := tag, hcFlags := hcf, env := env }
  | TagParserState.spaces_after_name =>
    if !(g_ascii_isspace b) then
      let env := { env with saved_p := some i }
      if b == 47 then
        { tag := { tag with flags := { tag.flags with fl_closed := true } },
          hcFlags := hcf, env := env }
      else if b != 62 then
        { tag := tag, hcFlags := hcf,
          env := { env with cur_state := TagParserState.parse_attr_name } }
      else
        { tag := tag, hcFlags := hcf, env := env }
    else
      { tag := tag, hcFlags := hcf, env := env }
  | TagParserState.spaces_before_eq =>
    if b == 61 then
      { tag := tag, hcFlags := hcf,
        env := { env with cur_state := TagParserState.parse_equal } }
    else if !(g_ascii_isspace b) then
      if b == 62 then
        -- attribute name followed by end of tag: empty attribute, ok
        { tag := tag, hcFlags := hcf, env := env }
      else if b == 34 || b == 39 then
        { tag := { tag with flags := { tag.flags with fl_broken := true } },
          hcFlags := { hcf with bad_elements := true },
          env := { env with cur_state := TagParserState.ignore_bad_tag } }
      else
        { tag := tag, hcFlags := hcf,
          env := { env with cur_state := TagParserState.parse_attr_name, saved_p := some i } }
    else
      { tag := tag, hcFlags := hcf, env := env }
  | TagParserState.spaces_after_eq =>
    if b == 34 then
      { tag := tag, hcFlags := hcf,
        env := { env with cur_state := TagParserState.parse_start_dquote } }
    else if b == 39 then
      { tag := tag, hcFlags := hcf,
        env := { env with cur_state := TagParserState.parse_start_squote } }
    else if !(g_ascii_isspace b) then
      { tag := tag, hcFlags := hcf,
        env := { env with cur_state := TagParserState.parse_value, saved_p := if env.saved_p.isSome then some i else env.saved_p } }
    else
      { tag := tag, hcFlags := hcf, env := env }
  | TagParserState.parse_equal =>
    if g_ascii_isspace b then
      { tag := tag, hcFlags := hcf,
        env := { env with cur_state := TagParserState.spaces_after_eq } }
    else if b == 34 then
      { tag := tag, hcFlags := hcf,
        env := { env with cur_state := TagParserState.parse_start_dquote } }
    else if b == 39 then
      { tag := tag, hcFlags := hcf,
        env := { env with cur_state := TagParserState.parse_start_squote } }
    else
      { tag := tag, hcFlags := hcf,
        env := { env with cur_state := TagParserState.parse_value, saved_p := if env.saved_p.isSome then some i else env.saved_p } }
  | TagParserState.parse_start_dquote =>
    if b == 34 then
      { tag := tag, hcFlags := hcf,
        env := { env with cur_state := TagParserState.spaces_after_param, saved_p := none } }
    else
      { tag := tag, hcFlags := hcf,
        env := { env with cur_state := TagParserState.parse_dqvalue, saved_p := if env.saved_p.isSome then some i else env.saved_p } }
  | TagParserState.parse_start_squote =>
    if b == 39 then
      { tag := tag, hcFlags := hcf,
        env := { env with cur_state := TagParserState.spaces_after_param, saved_p := none } }
    else
      { tag := tag, hcFlags := hcf,
        env := { env with cur_state := TagParserState.parse_sqvalue, saved_p := if env.saved_p.isSome then some i else env.saved_p } }
  | TagParserState.parse_dqvalue =>
    if b == 34 then
      let (tag', env') := store_tag_component ext input i env tag
      { tag := tag', hcFlags := hcf,
        env := { env' with cur_state := TagParserState.parse_end_dquote } }
    else
      { tag := tag, hcFlags := hcf, env := env }
  | TagParserState.parse_sqvalue =>
    if b == 39 then
      let (tag', env') := store_tag_component ext input i env tag
      { tag := tag', hcFlags := hcf,
        env := { env' with cur_state := TagParserState.parse_end_squote } }
    else
      { tag := tag, hcFlags := hcf, env := env }
  | TagParserState.parse_value =>
    if b == 47 && input.getD (i + 1) 0 == 62 then
      let tag := { tag with flags := { tag.flags with fl_closed := true } }
      let (tag', env') := store_tag_component ext input i env tag
      { tag := tag', hcFlags := hcf, env := env' }
    else if g_ascii_isspace b || b == 62 || b == 34 then
      let (tag', env') := store_tag_component ext input i env tag
      { tag := tag', hcFlags := hcf,
        env := { env' with cur_state := TagParserState.spaces_after_param } }
    else
      { tag := tag, hcFlags := hcf, env := env }
  | TagParserState.parse_end_dquote =>
    if g_ascii_isspace b then
      { tag := tag, hcFlags := hcf,
        env := { env with cur_state := TagParserState.spaces_after_param } }
    else if b == 47 && input.getD (i + 1) 0 == 62 then
      { tag := { tag with flags := { tag.flags with fl_closed := true } },
        hcFlags := hcf, env := env }
    else
      { tag := tag, hcFlags := hcf,
        env := { env with cur_state := TagParserState.parse_attr_name, saved_p := some i } }
  | TagParserState.parse_end_squote =>
    if g_ascii_isspace b then
      { tag := tag, hcFlags := hcf,
        env := { env with cur_state := TagParserState.spaces_after_param } }
    else if b == 47 && input.getD (i + 1) 0 == 62 then
      { tag := { tag with flags := { tag.flags with fl_closed := true } },
        hcFlags := hcf, env := env }
    else
      { tag := tag, hcFlags := hcf,
        env := { env with cur_state := TagParserState.parse_attr_name, saved_p := some i } }
  | TagParserState.spaces_after_param =>
    if !(g_ascii_isspace b) then
      let tag := if b == 47 && input.getD (i + 1) 0 == 62 then
          { tag with flags := { tag.flags with fl_closed := true } }
        else tag
      { tag := tag, hcFlags := hcf,
        env := { env with cur_state := TagParserState.parse_attr_name, saved_p := some i } }
    else
      { tag := tag, hcFlags := hcf, env := env }
  | TagParserState.ignore_bad_tag =>
    { tag := tag, hcFlags := hcf, env := env }

/-- What the CALLER's `tag_content_parser_state` struct holds after an
invocation of `parse_tag_content`: the source declares the parameter
`struct tag_content_parser_state parser_env` (html.cxx:271) — pass by
value — so the assignment `parser_env.cur_state = state` (html.cxx:633)
lands in a discarded copy and the caller's struct is unchanged. -/
def parse_tag_content_caller_env (env : TagParserEnv) : TagParserEnv :=
  env

/-! ### Claim C4: duplicate attributes are ignored (first occurrence wins) -/

/-- Lookup of a component kind in a tag's parameter list (the
`tag->parameters.find` call of `store_tag_component`). -/
def paramsFind (params : List (html_component_type × List Byte))
    (k : html_component_type) : Option (List Byte) :=
  (params.find? (fun kv => kv.fst = k)).map (·.snd)

/-- The value a store event `(env, i)` would contribute for component `k`:
some decoded slice `[saved_p, i)` when the event carries component `k`, a
set `saved_p` and a non-empty slice, none otherwise. -/
def storeEventValue (ext : ExternalFns) (input : List Byte)
    (k : html_component_type) (ev : TagParserEnv × Nat) : Option (List Byte) :=
  match ev.fst.saved_p, ev.fst.cur_component with
  | some sp, some comp =>
    if comp = k && decide (ev.snd > sp) then
      some (ext.decodeEntities (inputSlice input sp ev.snd))
    else none
  | _, _ => none

/-- Folding a sequence of store events through `store_tag_component`
(this is what the lexer does once per attribute value of a tag). -/
def storeAll (ext : ExternalFns) (input : List Byte) (tag : HtmlTag)
    (evs : List (TagParserEnv × Nat)) : HtmlTag :=
  evs.foldl (fun t ev => (store_tag_component ext input ev.snd ev.fst t).fst) tag

theorem paramsFind_append_single (params : List (html_component_type × List Byte))
    (c k : html_component_type) (v : List Byte) :
    paramsFind (params ++ [(c, v)]) k =
      (paramsFind params k).orElse (fun _ => if c = k then some v else none) := by
  induction params with
  | nil =>
    simp only [paramsFind, List.nil_append, List.find?]
    by_cases h : c = k <;> simp [h]
  | cons kv tl ih =>
    simp only [paramsFind, List.cons_append, List.find?] at *
    by_cases h : kv.fst = k
    · simp [h]
    · simpa [h] using ih

theorem storeOne_lookup (ext : ExternalFns) (input : List Byte)
    (t : HtmlTag) (ev : TagParserEnv × Nat) (k : html_component_type) :
    paramsFind ((store_tag_component ext input ev.snd ev.fst t).fst).params k =
      (paramsFind t.params k).orElse
        (fun _ => storeEventValue ext input k ev) := by
  obtain ⟨env, i⟩ := ev
  unfold store_tag_component storeEventValue
  cases hsp : env.saved_p with
  | none => cases h : paramsFind t.params k <;> simp [hsp, h, Option.orElse]
  | some sp =>
    cases hcc : env.cur_component with
    | none => cases h : paramsFind t.params k <;> simp [hsp, hcc, h, Option.orElse]
    | some comp =>
      simp only [hsp, hcc]
      by_cases hgt : i > sp
      · by_cases habs : (t.params.find? (fun kv => kv.fst = comp)) = none
        · have hnone : paramsFind t.params comp = none := by
            simp [paramsFind, habs]
          have hmain : paramsFind (t.params ++
              [(comp, ext.decodeEntities (inputSlice input sp i))]) k =
              (paramsFind t.params k).orElse
                (fun _ => if comp = k then
                    some (ext.decodeEntities (inputSlice input sp i)) else none) :=
            paramsFind_append_single _ _ _ _
          by_cases hk : comp = k
          · subst hk
            simp only [hgt, if_pos, habs, Option.isNone_none]
            simpa [hnone, hgt, Option.orElse] using hmain
          · simp only [hgt, if_pos, habs, Option.isNone_none]
            rw [hmain]
            cases h : paramsFind t.params k <;>
              simp [h, Option.orElse, hk, hgt]
        · have hsome : ∃ w, paramsFind t.params comp = some w := by
            cases h : t.params.find? (fun kv => kv.fst = comp) with
            | none => exact absurd h habs
            | some v => exact ⟨v.snd, by simp [paramsFind, h]⟩
          have hfalse : ¬((t.params.find? (fun kv => kv.fst = comp)).isNone = true) := by
            cases h : t.params.find? (fun kv => kv.fst = comp)
            · exact absurd h habs
            · simp [h]
          rw [if_pos hgt, if_neg hfalse]
          by_cases hk : comp = k
          · subst hk
            obtain ⟨w, hw⟩ := hsome
            simp [hw, Option.orElse]
          · cases h : paramsFind t.params k <;>
              simp [h, Option.orElse, hk, hgt]
      · rw [if_neg hgt]
        cases h : paramsFind t.params k <;>
          simp [h, Option.orElse, hgt]

theorem storeAll_lookup (ext : ExternalFns) (input : List Byte)
    (k : html_component_type) (evs : List (TagParserEnv × Nat)) (t : HtmlTag) :
    paramsFind (storeAll ext input t evs).params k =
      (paramsFind t.params k).orElse
        (fun _ => evs.findSome? (storeEventValue ext input k)) := by
  induction evs generalizing t with
  | nil =>
    cases h : paramsFind t.params k <;> simp [storeAll, h, Option.orElse]
  | cons ev tl ih =>
    have step := storeOne_lookup ext input t ev k
    have : storeAll ext input t (ev :: tl) =
        storeAll ext input ((store_tag_component ext input ev.snd ev.fst t).fst) tl := by
      simp [storeAll]
    rw [this, ih, step, List.findSome?_cons]
    cases h1 : paramsFind t.params k with
    | some w => simp [Option.orElse]
    | none =>
      cases h2 : storeEventValue ext input k ev <;> simp [Option.orElse, h2]

/-- Claim C4 (confirmed): for every tag and every recognized attribute
kind, when the lexer's store events carry the same component kind more
than once, only the first occurrence's (entity-decoded) value ends up in
the tag's parameter map; later duplicates are ignored.  Formally: starting
from an empty parameter map, after any sequence of `store_tag_component`
events the stored value of kind `k` is the value of the first event that
carries `k` with a non-empty pending slice. -/
theorem duplicate_attribute_first_wins (ext : ExternalFns) (input : List Byte)
    (tag0 : HtmlTag) (evs : List (TagParserEnv × Nat)) (k : html_component_type)
    (h : tag0.params = []) :
    paramsFind (storeAll ext input tag0 evs).params k =
      evs.findSome? (storeEventValue ext input k) := by
  rw [storeAll_lookup, h]
  simp [paramsFind, Option.orElse]

/-- Two store events for the same component kind `HREF`: value "a"
(slice [0,1)) then value "b" (slice [1,2)) of the buffer "ab". -/
def c4_events : List (TagParserEnv × Nat) :=
  [ ({ cur_state := TagParserState.parse_dqvalue, saved_p := some 0,
       cur_component := some html_component_type.HREF }, 1)
  , ({ cur_state := TagParserState.parse_dqvalue, saved_p := some 1,
       cur_component := some html_component_type.HREF }, 2) ]

/-- Witness for C4: on the concrete event sequence `c4_events` the theorem
applies, and the retained value is the first one ("a"). -/
theorem duplicate_attribute_first_wins_witness :
    ({} : HtmlTag).params = [] ∧
    paramsFind (storeAll {} (strBytes "ab") {} c4_events).params
        html_component_type.HREF =
      c4_events.findSome? (storeEventValue {} (strBytes "ab")
        html_component_type.HREF) ∧
    paramsFind (storeAll {} (strBytes "ab") {} c4_events).params
        html_component_type.HREF = some (strBytes "a") :=
  ⟨rfl,
   duplicate_attribute_first_wins {} (strBytes "ab") {} c4_events
     html_component_type.HREF rfl,
   by decide⟩

/-! ### Claim C5: resumability of the attribute lexer across chunks -/

/-- Claim C5 (code bug): the spec says the lexer is resumable because each
per-byte invocation leaves the caller-supplied state struct holding the
successor state.  The source computes the successor state (here:
`parse_start` → `parse_name` on the alphabetic byte 'a') and assigns it at
html.cxx:633, but the parameter is declared by value (html.cxx:271), so
the caller's struct is unchanged and the next invocation restarts from
`parse_start`. -/
theorem parse_tag_content_state_not_resumed :
    (parse_tag_content {} (strBytes "a") 0 {} {} {}).env.cur_state =
        TagParserState.parse_name ∧
    parse_tag_content_caller_env {} = ({} : TagParserEnv) ∧
    TagParserState.parse_name ≠ TagParserState.parse_start := by
  refine ⟨by decide, rfl, by decide⟩

/-! ### Tree builder (`rspamd_html_check_balance`, `rspamd_html_process_tag`) -/

/-- A `GNode` of the tag tree: payload (tag-arena index, `none` for the
root sentinel with `data == NULL`), parent link and ordered children, all
as tree-arena indices. -/
structure GNode where
  tagIdx : Option Nat := none
  parent : Option Nat := none
  children : List Nat := []
deriving DecidableEq, Repr

/-- The state threaded through the tree builder: the tag arena, the tree
arena, the content flags and counters, the current open level, and the
caller's `balanced` out-variable. -/
structure TreeState where
  tags : List HtmlTag := []
  tree : List GNode := []
  hcFlags : HcFlags := {}
  total_tags : Nat := 0
  cur_level : Option Nat := none
  balanced : Bool := true
deriving DecidableEq, Repr

/-- `max_tags` (html.cxx:46). -/
def max_tags : Nat := 8192

/-- `g_node_append`: allocate a node holding `tagIdx` as the last child of
`parentIdx`; returns the new tree and the new node's index. -/
def g_node_append (tree : List GNode) (parentIdx : Nat) (tagIdx : Option Nat) :
    List GNode × Nat :=
  let idx := tree.length
  let p := tree.getD parentIdx {}
  ((tree.set parentIdx { p with children := p.children ++ [idx] }) ++
     [{ tagIdx := tagIdx, parent := some parentIdx, children := [] }], idx)

/-- `g_node_destroy` of a leaf: unlink it from its parent's child list and
drop its arena slot (it is always the most recently allocated node when
the source calls this). -/
def g_node_destroy_leaf (tree : List GNode) (idx : Nat) : List GNode :=
  let tree' :=
    match (tree.getD idx {}).parent with
    | some pi =>
      let pn := tree.getD pi {}
      tree.set pi { pn with children := pn.children.filter (fun c => c ≠ idx) }
    | none => tree
  tree'.take idx

/-- The ancestor walk of `rspamd_html_check_balance` (html.cxx 82-95):
from `cur` upwards while the node exists and carries a tag (`cur->data`),
return the first one whose tag has the same id and no FL_CLOSED. -/
def balanceWalk (tags : List HtmlTag) (tree : List GNode) (tid : Int) :
    Nat → Option Nat → Option Nat
  | 0, _ => none
  | _, none => none
  | fuel + 1, some cur =>
    match (tree.getD cur {}).tagIdx with
    | none => none
    | some ti =>
      let tmp := tags.getD ti {}
      if tmp.id == tid && !tmp.flags.fl_closed then some cur
      else balanceWalk tags tree tid fuel (tree.getD cur {}).parent

/-- The same upward traversal as a list of visited node indices (used to
express "the nearest ancestor" in the claims: it is the first match in
this chain). -/
def ancestorChain (tree : List GNode) : Nat → Option Nat → List Nat
  | 0, _ => []
  | _, none => []
  | fuel + 1, some cur =>
    match (tree.getD cur {}).tagIdx with
    | none => []
    | some _ => cur :: ancestorChain tree fuel (tree.getD cur {}).parent

/-- The match predicate of the walk: node `c` carries a tag with id `tid`
whose FL_CLOSED is not set. -/
def sameOpenId (tags : List HtmlTag) (tree : List GNode) (tid : Int)
    (c : Nat) : Bool :=
  let tmp := tags.getD ((tree.getD c {}).tagIdx.getD 0) {}
  tmp.id == tid && !tmp.flags.fl_closed

/-- `rspamd_html_check_balance` (html.cxx 74-102): `nodeIdx` is the freshly
appended node holding the tag at `tagIdx`.  For a closing tag, walk up
from the node's parent; on a match mark the ancestor FL_CLOSED, destroy
the node and move the current level to the ancestor's parent. -/
def rspamd_html_check_balance (st : TreeState) (nodeIdx : Nat) (tagIdx : Nat) :
    Bool × TreeState :=
  let arg := st.tags.getD tagIdx {}
  if arg.flags.fl_closing then
    match balanceWalk st.tags st.tree arg.id st.tree.length
        ((st.tree.getD nodeIdx {}).parent) with
    | some cur =>
      let ti := (st.tree.getD cur {}).tagIdx.getD 0
      let tmp := st.tags.getD ti {}
      (true,
       { st with
         tags := st.tags.set ti
           { tmp with flags := { tmp.flags with fl_closed := true } },
         tree := g_node_destroy_leaf st.tree nodeIdx,
         cur_level := (st.tree.getD cur {}).parent })
    | none => (false, st)
  else
    (true, st)

/-- Update the arena slot of the current tag (C mutation through the
`tag` pointer). -/
def setTagAt (st : TreeState) (tagIdx : Nat) (f : HtmlTag → HtmlTag) :
    TreeState :=
  { st with tags := st.tags.set tagIdx (f (st.tags.getD tagIdx {})) }

/-- Prologue of `rspamd_html_process_tag` (html.cxx 111-125): allocate the
tag record into the arena (the C caller allocated it at `tag_begin`),
create the root sentinel if the tree is empty, and set TOO_MANY_TAGS when
the running total already exceeds `max_tags`. -/
def processTag_prologue (st0 : TreeState) (tag : HtmlTag) : TreeState × Nat :=
  let tagIdx := st0.tags.length
  let st := { st0 with tags := st0.tags ++ [tag] }
  let st := if st.tree.isEmpty then
      { st with tree := [{ tagIdx := none, parent := none, children := [] }],
                cur_level := some 0 }
    else st
  let st := if st.total_tags > max_tags then
      { st with hcFlags := { st.hcFlags with too_many_tags := true } }
    else st
  (st, tagIdx)

/-- Closing-block branch of `rspamd_html_process_tag` (html.cxx 137-159). -/
def processTag_blockClosing (st : TreeState) (tagIdx : Nat) :
    Bool × TreeState :=
  match st.cur_level with
  | none => (false, st)
  | some lvl =>
    if st.total_tags < max_tags then
      let app := g_node_append st.tree lvl (some tagIdx)
      let st1 := { st with tree := app.fst }
      let res := rspamd_html_check_balance st1 app.snd tagIdx
      let st2 := if !res.fst then
          { res.snd with
            hcFlags := { res.snd.hcFlags with unbalanced := true },
            balanced := false }
        else { res.snd with balanced := true }
      (true, { st2 with total_tags := st2.total_tags + 1 })
    else
      (true, st)

/-- Common tail of the opening-block branch (html.cxx 189-205): append the
node under the current level, push the level unless the tag is closed, and
inherit FL_IGNORE for head/unknown/ignored tags. -/
def processTag_openCont (st : TreeState) (tagIdx lvl : Nat) :
    Bool × TreeState :=
  let st := if st.total_tags < max_tags then
      let app := g_node_append st.tree lvl (some tagIdx)
      let st1 := { st with tree := app.fst }
      let st2 := if !((st1.tags.getD tagIdx {}).flags.fl_closed) then
          { st1 with cur_level := some app.snd }
        else st1
      { st2 with total_tags := st2.total_tags + 1 }
    else st
  let tnow := st.tags.getD tagIdx {}
  if tnow.flags.cm_head || tnow.flags.cm_unknown || tnow.flags.fl_ignore then
    (false, setTagAt st tagIdx
       (fun t => { t with flags := { t.flags with fl_ignore := true } }))
  else
    (true, st)

/-- Bad-nesting case of the opening-block branch (html.cxx 171-185):
`<a>bla<a>foo...` — set UNBALANCED, reparent the tag to the grandparent
and append there. -/
def processTag_badNesting (st : TreeState) (tagIdx : Nat) (parent : HtmlTag) :
    Bool × TreeState :=
  let st := { st with
      hcFlags := { st.hcFlags with unbalanced := true },
      balanced := false }
  let st := setTagAt st tagIdx
      (fun t => { t with parentNode := parent.parentNode })
  let st := if st.total_tags < max_tags then
      let gp := parent.parentNode.getD 0
      let app := g_node_append st.tree gp (some tagIdx)
      { st with tree := app.fst, cur_level := some app.snd,
                total_tags := st.total_tags + 1 }
    else st
  (true, st)

/-- Opening-block branch of `rspamd_html_process_tag` (html.cxx 160-206),
including the bad-nesting special case (`<a>bla<a>foo`). -/
def processTag_blockOpen (st : TreeState) (tagIdx : Nat) :
    Bool × TreeState :=
  let lvl := st.cur_level.getD 0
  match (st.tree.getD lvl {}).tagIdx with
  | none => processTag_openCont st tagIdx lvl
  | some pIdx =>
    let parent := st.tags.getD pIdx {}
    let st := if parent.flags.fl_ignore then
        setTagAt st tagIdx
          (fun t => { t with flags := { t.flags with fl_ignore := true } })
      else st
    let tnow := st.tags.getD tagIdx {}
    if !tnow.flags.fl_closed && !parent.flags.fl_block &&
        parent.id == tnow.id then
      processTag_badNesting st tagIdx parent
    else
      processTag_openCont st tagIdx lvl

/-- Inline/empty branch of `rspamd_html_process_tag` (html.cxx 208-225). -/
def processTag_inline (st : TreeState) (tagIdx : Nat) : Bool × TreeState :=
  let lvl := st.cur_level.getD 0
  match (st.tree.getD lvl {}).tagIdx with
  | none => (true, st)
  | some pIdx =>
    let parent := st.tags.getD pIdx {}
    let st := if st.total_tags < max_tags then
        let app := g_node_append st.tree lvl (some tagIdx)
        { st with tree := app.fst, total_tags := st.total_tags + 1 }
      else st
    if parent.flags.cm_head || parent.flags.cm_unknown ||
        parent.flags.fl_ignore then
      (false, setTagAt st tagIdx
         (fun t => { t with flags := { t.flags with fl_ignore := true } }))
    else
      (true, st)

/-- Branch dispatch of `rspamd_html_process_tag` (html.cxx 127-228): drop
unknown tags, record the tag's parent level, then treat it as closing
block, opening block or inline. -/
def processTag_dispatch (st : TreeState) (tagIdx : Nat) (tag : HtmlTag) :
    Bool × TreeState :=
  if tag.id == -1 then
    (false, { st with total_tags := st.total_tags + 1 })
  else
    let st := setTagAt st tagIdx (fun t => { t with parentNode := st.cur_level })
    if !(tag.flags.cm_inline || tag.flags.cm_empty) then
      if tag.flags.fl_closing || tag.flags.fl_closed then
        processTag_blockClosing st tagIdx
      else
        processTag_blockOpen st tagIdx
    else
      processTag_inline st tagIdx

/-- `rspamd_html_process_tag` (html.cxx 104-228): prologue then branch
dispatch; returns the C return value, the new state and the arena index of
the processed tag. -/
def rspamd_html_process_tag (st0 : TreeState) (tag : HtmlTag) :
    Bool × TreeState × Nat :=
  let pro := processTag_prologue st0 tag
  let r := processTag_dispatch pro.fst pro.snd tag
  (r.fst, r.snd, pro.snd)

/-- Number of real (tag-carrying) nodes retained in the tree. -/
def realNodeCount (tree : List GNode) : Nat :=
  tree.countP (fun n => n.tagIdx.isSome)

/-- Processing a whole sequence of emitted tags from the empty state. -/
def processTags (tags : List HtmlTag) : TreeState :=
  tags.foldl (fun st tag => (rspamd_html_process_tag st tag).snd.fst) {}

theorem realNodeCount_set (tree : List GNode) (i : Nat) (v : GNode)
    (h : v.tagIdx.isSome = (tree.getD i {}).tagIdx.isSome) :
    realNodeCount (tree.set i v) = realNodeCount tree := by
  induction tree generalizing i with
  | nil => rfl
  | cons hd tl ih =>
    cases i with
    | zero =>
      have hh : v.tagIdx.isSome = hd.tagIdx.isSome := by
        simpa [List.getD_cons_zero] using h
      simp [realNodeCount, List.countP_cons, hh]
    | succ j =>
      have hh : v.tagIdx.isSome = (tl.getD j {}).tagIdx.isSome := by
        simpa [List.getD_cons_succ] using h
      show realNodeCount (hd :: tl.set j v) = realNodeCount (hd :: tl)
      simp only [realNodeCount, List.countP_cons] at *
      rw [ih j hh]

theorem realNodeCount_g_node_append (tree : List GNode) (p t : Nat) :
    realNodeCount (g_node_append tree p (some t)).fst =
      realNodeCount tree + 1 := by
  unfold g_node_append
  simp only [realNodeCount, List.countP_append]
  rw [show (List.countP (fun n => n.tagIdx.isSome)
        (tree.set p { tree.getD p {} with
          children := (tree.getD p {}).children ++ [tree.length] })) =
      List.countP (fun n => n.tagIdx.isSome) tree from
    realNodeCount_set tree p _ rfl]
  simp [List.countP_cons]

theorem realNodeCount_destroy_le (tree : List GNode) (idx : Nat) :
    realNodeCount (g_node_destroy_leaf tree idx) ≤ realNodeCount tree := by
  unfold g_node_destroy_leaf
  have htake : ∀ (l : List GNode), realNodeCount (l.take idx) ≤ realNodeCount l :=
    fun l => List.Sublist.countP_le _ (List.take_sublist idx l)
  cases hp : (tree.getD idx {}).parent with
  | none => simpa using htake tree
  | some pi =>
    simp only []
    calc realNodeCount ((tree.set pi _).take idx) ≤
        realNodeCount (tree.set pi { tree.getD pi {} with
          children := (tree.getD pi {}).children.filter (fun c => c ≠ idx) }) :=
          htake _
      _ = realNodeCount tree := realNodeCount_set tree pi _ rfl

theorem check_balance_total_flags (st : TreeState) (n t : Nat) :
    (rspamd_html_check_balance st n t).snd.total_tags = st.total_tags ∧
    (rspamd_html_check_balance st n t).snd.hcFlags = st.hcFlags ∧
    realNodeCount (rspamd_html_check_balance st n t).snd.tree ≤
      realNodeCount st.tree := by
  simp only [rspamd_html_check_balance]
  split
  · split
    · exact ⟨rfl, rfl, realNodeCount_destroy_le _ _⟩
    · exact ⟨rfl, rfl, le_refl _⟩
  · exact ⟨rfl, rfl, le_refl _⟩

theorem prologue_count (st0 : TreeState) (tag : HtmlTag) :
    realNodeCount (processTag_prologue st0 tag).fst.tree ≤
        realNodeCount st0.tree ∧
    (processTag_prologue st0 tag).fst.total_tags = st0.total_tags := by
  unfold processTag_prologue
  by_cases he : st0.tree.isEmpty <;>
    by_cases hm : st0.total_tags > max_tags <;>
      simp [he, hm, realNodeCount, List.countP_cons]

theorem blockClosing_inv (st : TreeState) (tagIdx : Nat)
    (h1 : realNodeCount st.tree ≤ st.total_tags)
    (h2 : realNodeCount st.tree ≤ max_tags) :
    realNodeCount (processTag_blockClosing st tagIdx).snd.tree ≤
      (processTag_blockClosing st tagIdx).snd.total_tags ∧
    realNodeCount (processTag_blockClosing st tagIdx).snd.tree ≤ max_tags := by
  unfold processTag_blockClosing
  split
  · exact ⟨h1, h2⟩
  next lvl heq =>
    by_cases hlt : st.total_tags < max_tags
    · have hcb := check_balance_total_flags
        { st with tree := (g_node_append st.tree lvl (some tagIdx)).fst }
        (g_node_append st.tree lvl (some tagIdx)).snd tagIdx
      have happ := realNodeCount_g_node_append st.tree lvl tagIdx
      obtain ⟨hcb1, _, hcb3⟩ := hcb
      simp only [hlt, if_true]
      split <;> constructor <;>
        (first
          | (dsimp only at hcb1 hcb3 ⊢; omega)
          | (simp only [] at hcb1 hcb3 ⊢; omega))
    · simp only [hlt, if_false]
      exact ⟨h1, h2⟩

theorem openCont_inv (st : TreeState) (tagIdx lvl : Nat)
    (h1 : realNodeCount st.tree ≤ st.total_tags)
    (h2 : realNodeCount st.tree ≤ max_tags) :
    realNodeCount (processTag_openCont st tagIdx lvl).snd.tree ≤
      (processTag_openCont st tagIdx lvl).snd.total_tags ∧
    realNodeCount (processTag_openCont st tagIdx lvl).snd.tree ≤ max_tags := by
  unfold processTag_openCont setTagAt
  have happ := realNodeCount_g_node_append st.tree lvl tagIdx
  by_cases hlt : st.total_tags < max_tags <;>
    simp only [hlt, if_true, if_false] <;>
      split <;> (try split) <;> constructor <;> dsimp only <;>
        simp only [max_tags] at * <;> omega

theorem setTagAt_tree (st : TreeState) (i : Nat) (f : HtmlTag → HtmlTag) :
    (setTagAt st i f).tree = st.tree := rfl

theorem setTagAt_total (st : TreeState) (i : Nat) (f : HtmlTag → HtmlTag) :
    (setTagAt st i f).total_tags = st.total_tags := rfl

theorem setTagAt_cur_level (st : TreeState) (i : Nat) (f : HtmlTag → HtmlTag) :
    (setTagAt st i f).cur_level = st.cur_level := rfl

theorem setTagAt_hcFlags (st : TreeState) (i : Nat) (f : HtmlTag → HtmlTag) :
    (setTagAt st i f).hcFlags = st.hcFlags := rfl

theorem blockOpen_inv (st : TreeState) (tagIdx : Nat)
    (h1 : realNodeCount st.tree ≤ st.total_tags)
    (h2 : realNodeCount st.tree ≤ max_tags) :
    realNodeCount (processTag_blockOpen st tagIdx).snd.tree ≤
      (processTag_blockOpen st tagIdx).snd.total_tags ∧
    realNodeCount (processTag_blockOpen st tagIdx).snd.tree ≤ max_tags := by
  have hbn : ∀ (s : TreeState) (p : HtmlTag),
      realNodeCount s.tree ≤ s.total_tags → realNodeCount s.tree ≤ max_tags →
      realNodeCount (processTag_badNesting s tagIdx p).snd.tree ≤
          (processTag_badNesting s tagIdx p).snd.total_tags ∧
        realNodeCount (processTag_badNesting s tagIdx p).snd.tree ≤ max_tags := by
    intro s p ha hb
    simp only [processTag_badNesting, setTagAt_tree, setTagAt_total]
    split <;> constructor <;>
      simp only [setTagAt_tree, setTagAt_total, realNodeCount_g_node_append] <;>
        omega
  simp only [processTag_blockOpen]
  split
  · exact openCont_inv st tagIdx _ h1 h2
  next pIdx heq =>
    split <;> split
    · exact hbn _ _
        (by simpa only [setTagAt_tree, setTagAt_total] using h1)
        (by simpa only [setTagAt_tree] using h2)
    · exact openCont_inv _ tagIdx _
        (by simpa only [setTagAt_tree, setTagAt_total] using h1)
        (by simpa only [setTagAt_tree] using h2)
    · exact hbn _ _ h1 h2
    · exact openCont_inv _ tagIdx _ h1 h2

theorem inline_inv (st : TreeState) (tagIdx : Nat)
    (h1 : realNodeCount st.tree ≤ st.total_tags)
    (h2 : realNodeCount st.tree ≤ max_tags) :
    realNodeCount (processTag_inline st tagIdx).snd.tree ≤
      (processTag_inline st tagIdx).snd.total_tags ∧
    realNodeCount (processTag_inline st tagIdx).snd.tree ≤ max_tags := by
  simp only [processTag_inline]
  split
  · exact ⟨h1, h2⟩
  next pIdx heq =>
    have happ := realNodeCount_g_node_append st.tree (st.cur_level.getD 0) tagIdx
    split <;> split <;> constructor <;>
      ((try simp only [setTagAt_tree, setTagAt_total]) <;>
       (try dsimp only) <;>
       (try simp only [setTagAt_tree, setTagAt_total,
          realNodeCount_g_node_append]) <;>
       omega)

theorem dispatch_inv (st : TreeState) (tagIdx : Nat) (tag : HtmlTag)
    (h1 : realNodeCount st.tree ≤ st.total_tags)
    (h2 : realNodeCount st.tree ≤ max_tags) :
    realNodeCount (processTag_dispatch st tagIdx tag).snd.tree ≤
      (processTag_dispatch st tagIdx tag).snd.total_tags ∧
    realNodeCount (processTag_dispatch st tagIdx tag).snd.tree ≤ max_tags := by
  unfold processTag_dispatch
  split
  · exact ⟨by dsimp only; omega, by dsimp only; omega⟩
  · split
    · split
      · exact blockClosing_inv _ _
          (by simpa only [setTagAt_tree, setTagAt_total] using h1)
          (by simpa only [setTagAt_tree] using h2)
      · exact blockOpen_inv _ _
          (by simpa only [setTagAt_tree, setTagAt_total] using h1)
          (by simpa only [setTagAt_tree] using h2)
    · exact inline_inv _ _
        (by simpa only [setTagAt_tree, setTagAt_total] using h1)
        (by simpa only [setTagAt_tree] using h2)

theorem processTag_count_inv (st : TreeState) (tag : HtmlTag)
    (h1 : realNodeCount st.tree ≤ st.total_tags)
    (h2 : realNodeCount st.tree ≤ max_tags) :
    realNodeCount (rspamd_html_process_tag st tag).snd.fst.tree ≤
      (rspamd_html_process_tag st tag).snd.fst.total_tags ∧
    realNodeCount (rspamd_html_process_tag st tag).snd.fst.tree ≤ max_tags := by
  obtain ⟨hp1, hp2⟩ := prologue_count st tag
  have hd := dispatch_inv (processTag_prologue st tag).fst
      (processTag_prologue st tag).snd tag (by omega) (by omega)
  unfold rspamd_html_process_tag
  dsimp only
  exact hd

theorem blockClosing_no_mut (st : TreeState) (tagIdx : Nat)
    (h : ¬ st.total_tags < max_tags) :
    (processTag_blockClosing st tagIdx).snd = st := by
  unfold processTag_blockClosing
  split
  · rfl
  · rw [if_neg h]

theorem openCont_no_mut (st : TreeState) (tagIdx lvl : Nat)
    (h : ¬ st.total_tags < max_tags) :
    (processTag_openCont st tagIdx lvl).snd.tree = st.tree ∧
    (processTag_openCont st tagIdx lvl).snd.cur_level = st.cur_level ∧
    (processTag_openCont st tagIdx lvl).snd.hcFlags = st.hcFlags := by
  simp only [processTag_openCont]
  rw [if_neg h]
  split <;> exact ⟨rfl, rfl, rfl⟩

theorem badNesting_no_mut (st : TreeState) (tagIdx : Nat) (p : HtmlTag)
    (h : ¬ st.total_tags < max_tags) :
    (processTag_badNesting st tagIdx p).snd.tree = st.tree ∧
    (processTag_badNesting st tagIdx p).snd.cur_level = st.cur_level ∧
    (processTag_badNesting st tagIdx p).snd.hcFlags.too_many_tags =
      st.hcFlags.too_many_tags := by
  simp only [processTag_badNesting, setTagAt_total]
  rw [if_neg h]
  exact ⟨rfl, rfl, rfl⟩

theorem inline_no_mut (st : TreeState) (tagIdx : Nat)
    (h : ¬ st.total_tags < max_tags) :
    (processTag_inline st tagIdx).snd.tree = st.tree ∧
    (processTag_inline st tagIdx).snd.cur_level = st.cur_level ∧
    (processTag_inline st tagIdx).snd.hcFlags = st.hcFlags := by
  simp only [processTag_inline]
  split
  · exact ⟨rfl, rfl, rfl⟩
  · rw [if_neg h]
    split <;> exact ⟨rfl, rfl, rfl⟩

theorem blockOpen_no_mut (st : TreeState) (tagIdx : Nat)
    (h : ¬ st.total_tags < max_tags) :
    (processTag_blockOpen st tagIdx).snd.tree = st.tree ∧
    (processTag_blockOpen st tagIdx).snd.cur_level = st.cur_level ∧
    (processTag_blockOpen st tagIdx).snd.hcFlags.too_many_tags =
      st.hcFlags.too_many_tags := by
  simp only [processTag_blockOpen]
  split
  · obtain ⟨a, b, c⟩ := openCont_no_mut st tagIdx (st.cur_level.getD 0) h
    exact ⟨a, b, by rw [c]⟩
  · split <;> split
    · exact badNesting_no_mut
        (setTagAt st tagIdx
          (fun t => { t with flags := { t.flags with fl_ignore := true } }))
        tagIdx _ h
    · obtain ⟨a, b, c⟩ := openCont_no_mut
        (setTagAt st tagIdx
          (fun t => { t with flags := { t.flags with fl_ignore := true } }))
        tagIdx (st.cur_level.getD 0) h
      exact ⟨a, b, by rw [c, setTagAt_hcFlags]⟩
    · exact badNesting_no_mut st tagIdx _ h
    · obtain ⟨a, b, c⟩ := openCont_no_mut st tagIdx (st.cur_level.getD 0) h
      exact ⟨a, b, by rw [c]⟩

theorem dispatch_no_mut (st : TreeState) (tagIdx : Nat) (tag : HtmlTag)
    (h : ¬ st.total_tags < max_tags) :
    (processTag_dispatch st tagIdx tag).snd.tree = st.tree ∧
    (processTag_dispatch st tagIdx tag).snd.cur_level = st.cur_level ∧
    (processTag_dispatch st tagIdx tag).snd.hcFlags.too_many_tags =
      st.hcFlags.too_many_tags := by
  simp only [processTag_dispatch]
  split
  · exact ⟨rfl, rfl, rfl⟩
  · split
    · split
      · have := blockClosing_no_mut
          (setTagAt st tagIdx (fun t => { t with parentNode := st.cur_level }))
          tagIdx h
        exact ⟨by rw [this]; rfl, by rw [this]; rfl, by rw [this]; rfl⟩
      · exact blockOpen_no_mut
          (setTagAt st tagIdx (fun t => { t with parentNode := st.cur_level }))
          tagIdx h
    · obtain ⟨a, b, c⟩ := inline_no_mut
        (setTagAt st tagIdx (fun t => { t with parentNode := st.cur_level }))
        tagIdx h
      exact ⟨a, b, by rw [c, setTagAt_hcFlags]⟩

theorem prologue_over_limit (st : TreeState) (tag : HtmlTag)
    (hgt : st.total_tags > max_tags) (hne : st.tree ≠ []) :
    (processTag_prologue st tag).fst.hcFlags.too_many_tags = true ∧
    (processTag_prologue st tag).fst.tree = st.tree ∧
    (processTag_prologue st tag).fst.cur_level = st.cur_level := by
  simp only [processTag_prologue]
  have he : ¬ ((({ st with tags := st.tags ++ [tag] } : TreeState)).tree.isEmpty
      = true) := by
    simpa using hne
  rw [if_neg he,
    if_pos (show ({ st with tags := st.tags ++ [tag] } :
      TreeState).total_tags > max_tags from hgt)]
  exact ⟨rfl, rfl, rfl⟩

theorem processTags_inv (tags : List HtmlTag) :
    realNodeCount (processTags tags).tree ≤ (processTags tags).total_tags ∧
    realNodeCount (processTags tags).tree ≤ max_tags := by
  suffices h : ∀ (st : TreeState),
      realNodeCount st.tree ≤ st.total_tags →
      realNodeCount st.tree ≤ max_tags →
      realNodeCount (tags.foldl
          (fun st tag => (rspamd_html_process_tag st tag).snd.fst) st).tree ≤
        (tags.foldl
          (fun st tag => (rspamd_html_process_tag st tag).snd.fst) st).total_tags ∧
      realNodeCount (tags.foldl
          (fun st tag => (rspamd_html_process_tag st tag).snd.fst) st).tree ≤
        max_tags by
    exact h {} (by simp [realNodeCount]) (by simp [realNodeCount, max_tags])
  induction tags with
  | nil => exact fun st ha hb => ⟨ha, hb⟩
  | cons hd tl ih =>
    intro st ha hb
    obtain ⟨ha', hb'⟩ := processTag_count_inv st hd ha hb
    exact ih _ ha' hb'

/-! ### Claim C1: the 8192 tag-record limit -/

/-- Claim C1 (confirmed): at most 8192 tag records are ever retained in
the tag tree, and once the running total of counted tags
(`hc->total_tags`) exceeds 8192, `rspamd_html_process_tag` sets the
TOO_MANY_TAGS flag on the content root and the tag is dropped without
adding a node to the tree or moving the current level. -/
theorem tag_tree_limit_and_drop :
    (∀ tags : List HtmlTag, realNodeCount (processTags tags).tree ≤ max_tags) ∧
    (∀ (st : TreeState) (tag : HtmlTag), st.total_tags > max_tags →
      st.tree ≠ [] →
      (rspamd_html_process_tag st tag).snd.fst.hcFlags.too_many_tags = true ∧
      (rspamd_html_process_tag st tag).snd.fst.tree = st.tree ∧
      (rspamd_html_process_tag st tag).snd.fst.cur_level = st.cur_level) := by
  constructor
  · intro tags
    exact (processTags_inv tags).2
  · intro st tag hgt hne
    obtain ⟨pf, pt, pc⟩ := prologue_over_limit st tag hgt hne
    have hnm : ¬ (processTag_prologue st tag).fst.total_tags < max_tags := by
      have he : (processTag_prologue st tag).fst.total_tags = st.total_tags :=
        (prologue_count st tag).2
      omega
    obtain ⟨m1, m2, m3⟩ := dispatch_no_mut (processTag_prologue st tag).fst
      (processTag_prologue st tag).snd tag hnm
    unfold rspamd_html_process_tag
    dsimp only
    exact ⟨by rw [m3, pf], by rw [m1, pt], by rw [m2, pc]⟩

/-- Concrete state for the C1 witness: root-only tree, counter already
past the limit. -/
def c1_state : TreeState :=
  { tags := [], tree := [{ tagIdx := none, parent := none, children := [] }],
    hcFlags := {}, total_tags := 8193, cur_level := some 0, balanced := true }

/-- Concrete block tag for the C1 witness. -/
def c1_tag : HtmlTag :=
  { id := 5, flags := { fl_block := true } }

/-- Witness for C1: the bound applied to one concrete tag sequence, and
the over-limit branch applied at a concrete over-limit state. -/
theorem tag_tree_limit_and_drop_witness :
    realNodeCount (processTags [c1_tag]).tree ≤ max_tags ∧
    c1_state.total_tags > max_tags ∧
    c1_state.tree ≠ [] ∧
    ((rspamd_html_process_tag c1_state c1_tag).snd.fst.hcFlags.too_many_tags
        = true ∧
      (rspamd_html_process_tag c1_state c1_tag).snd.fst.tree = c1_state.tree ∧
      (rspamd_html_process_tag c1_state c1_tag).snd.fst.cur_level =
        c1_state.cur_level) :=
  ⟨tag_tree_limit_and_drop.1 [c1_tag], by decide, by decide,
   tag_tree_limit_and_drop.2 c1_state c1_tag (by decide) (by decide)⟩

/-! ### Claim C2: closing-tag reconciliation -/

theorem getD_append_last {α : Type} (l : List α) (x d : α) :
    (l ++ [x]).getD l.length d = x := by
  rw [List.getD_append_right _ _ _ _ (le_refl _)]
  simp

theorem set_append_last {α : Type} (l : List α) (x v : α) :
    (l ++ [x]).set l.length v = l ++ [v] := by
  rw [List.set_append]
  simp

theorem getD_set_self {α : Type} (l : List α) (i : Nat) (v d : α)
    (h : i < l.length) :
    (l.set i v).getD i d = v := by
  rw [List.getD_eq_getElem _ _ (by simpa using h), List.getElem_set]
  simp

theorem getD_set_ne {α : Type} (l : List α) (i j : Nat) (v d : α)
    (h : i ≠ j) :
    (l.set i v).getD j d = l.getD j d := by
  by_cases hj : j < l.length
  · rw [List.getD_eq_getElem _ _ (by simpa using hj),
      List.getD_eq_getElem _ _ hj, List.getElem_set_ne h]
  · have h1 : l.length ≤ j := Nat.le_of_not_lt hj
    have h2 : (l.set i v).length ≤ j := by simpa using h1
    rw [List.getD_eq_default _ _ h2, List.getD_eq_default _ _ h1]

theorem getD_mem {α : Type} (l : List α) (i : Nat) (d : α) (h : i < l.length) :
    l.getD i d ∈ l := by
  rw [List.getD_eq_getElem _ _ h]
  exact List.getElem_mem h

/-- Every node index visited by the ancestor walk is in bounds, provided
parent links are. -/
theorem ancestorChain_mem_lt (tree : List GNode)
    (hpar : ∀ n ∈ tree, ∀ p, n.parent = some p → p < tree.length) :
    ∀ (fuel : Nat) (cur : Option Nat),
      (∀ c, cur = some c → c < tree.length) →
      ∀ x ∈ ancestorChain tree fuel cur, x < tree.length := by
  intro fuel
  induction fuel with
  | zero =>
    intro cur h x hx
    simp [ancestorChain] at hx
  | succ f ih =>
    intro cur h x hx
    match cur with
    | none => simp [ancestorChain] at hx
    | some c =>
      have hc := h c rfl
      rw [ancestorChain] at hx
      cases hti : (tree.getD c {}).tagIdx with
      | none => rw [hti] at hx; simp at hx
      | some ti =>
        rw [hti] at hx
        simp only [List.mem_cons] at hx
        cases hx with
        | inl he => exact he ▸ hc
        | inr htl =>
          refine ih _ ?_ x htl
          intro p hp
          exact hpar (tree.getD c {}) (getD_mem tree c {} hc) p hp

/-- Every node on the ancestor chain carries a tag. -/
theorem ancestorChain_tag_isSome (tree : List GNode) :
    ∀ (fuel : Nat) (cur : Option Nat),
      ∀ x ∈ ancestorChain tree fuel cur, (tree.getD x {}).tagIdx.isSome := by
  intro fuel
  induction fuel with
  | zero =>
    intro cur x hx
    simp [ancestorChain] at hx
  | succ f ih =>
    intro cur x hx
    match cur with
    | none => simp [ancestorChain] at hx
    | some c =>
      rw [ancestorChain] at hx
      cases hti : (tree.getD c {}).tagIdx with
      | none => rw [hti] at hx; simp at hx
      | some ti =>
        rw [hti] at hx
        simp only [List.mem_cons] at hx
        cases hx with
        | inl he => rw [he, hti]; rfl
        | inr htl => exact ih _ x htl

/-- The walk of `rspamd_html_check_balance` on the extended tree and tag
arena computes the first match on the ancestor chain of the original
tree: the "nearest ancestor with the same id not yet closed". -/
theorem balanceWalk_eq_find (tags tags' : List HtmlTag)
    (tree tree' : List GNode) (tid : Int)
    (hnode : ∀ i, i < tree.length →
        (tree'.getD i {}).tagIdx = (tree.getD i {}).tagIdx ∧
        (tree'.getD i {}).parent = (tree.getD i {}).parent)
    (htag : ∀ n ∈ tree, ∀ ti, n.tagIdx = some ti →
        tags'.getD ti {} = tags.getD ti {})
    (hpar : ∀ n ∈ tree, ∀ p, n.parent = some p → p < tree.length) :
    ∀ (fuel : Nat) (cur : Option Nat),
      (∀ c, cur = some c → c < tree.length) →
      balanceWalk tags' tree' tid fuel cur =
        (ancestorChain tree fuel cur).find?
          (sameOpenId tags tree tid) := by
  intro fuel
  induction fuel with
  | zero => intro cur h; cases cur <;> simp [balanceWalk, ancestorChain]
  | succ f ih =>
    intro cur h
    match cur with
    | none => simp [balanceWalk, ancestorChain]
    | some c =>
      have hc := h c rfl
      obtain ⟨hni, hnp⟩ := hnode c hc
      have hmem : tree.getD c {} ∈ tree := getD_mem tree c {} hc
      rw [balanceWalk, ancestorChain, hni]
      cases hti : (tree.getD c {}).tagIdx with
      | none => rfl
      | some ti =>
        dsimp only
        have htg : tags'.getD ti {} = tags.getD ti {} :=
          htag _ hmem ti hti
        have hrec : ∀ p, (tree.getD c {}).parent = some p →
            p < tree.length :=
          fun p hp => hpar _ hmem p hp
        have hso : sameOpenId tags tree tid c =
            ((tags.getD ti {}).id == tid &&
              !(tags.getD ti {}).flags.fl_closed) := by
          unfold sameOpenId
          rw [hti]
          rfl
        rw [htg, hnp, ih ((tree.getD c {}).parent) hrec,
          List.find?_cons, hso]
        cases hbc : ((tags.getD ti {}).id == tid &&
            !(tags.getD ti {}).flags.fl_closed) <;> rfl

theorem take_len_append {α : Type} (l : List α) (x : α) (n : Nat)
    (h : l.length = n) :
    (l ++ [x]).take n = l := by
  subst h
  exact List.take_left l [x]

/-- Exact description of the closing-block branch under the conditions of
claim C2: the walk outcome decides between marking the nearest open
ancestor closed + destroying the closing node + popping the level (match)
and setting UNBALANCED while the dangling closing node stays (no match). -/
theorem blockClosing_spec (st : TreeState) (tag2 : HtmlTag)
    (lvl : Nat) (hlvl : st.cur_level = some lvl)
    (hlim : st.total_tags < max_tags)
    (hcl2 : tag2.flags.fl_closing = true)
    (hwf_par : ∀ n ∈ st.tree, ∀ p, n.parent = some p → p < st.tree.length)
    (hwf_tag : ∀ n ∈ st.tree, ∀ ti, n.tagIdx = some ti → ti < st.tags.length)
    (hwf_lvl : lvl < st.tree.length) :
    processTag_blockClosing { st with tags := st.tags ++ [tag2] }
        st.tags.length =
      match (ancestorChain st.tree (st.tree.length + 1) (some lvl)).find?
          (sameOpenId st.tags st.tree tag2.id) with
      | some a =>
        (true,
         { st with
           tags := (st.tags ++ [tag2]).set
             ((st.tree.getD a {}).tagIdx.getD 0)
             { st.tags.getD ((st.tree.getD a {}).tagIdx.getD 0) {} with
               flags := { (st.tags.getD ((st.tree.getD a {}).tagIdx.getD 0)
                 {}).flags with fl_closed := true } },
           tree := st.tree.set lvl
             { st.tree.getD lvl {} with
               children := ((st.tree.getD lvl {}).children ++
                 [st.tree.length]).filter (fun c => c ≠ st.tree.length) },
           cur_level := (st.tree.getD a {}).parent,
           balanced := true,
           total_tags := st.total_tags + 1 })
      | none =>
        (true,
         { st with
           tags := st.tags ++ [tag2],
           tree := (st.tree.set lvl
             { st.tree.getD lvl {} with
               children := (st.tree.getD lvl {}).children ++
                 [st.tree.length] }) ++
             [{ tagIdx := some st.tags.length, parent := some lvl,
                children := [] }],
           hcFlags := { st.hcFlags with unbalanced := true },
           balanced := false,
           total_tags := st.total_tags + 1 }) := by
  have e_cur : ({ st with tags := st.tags ++ [tag2] } : TreeState).cur_level
      = some lvl := hlvl
  unfold processTag_blockClosing
  rw [e_cur]
  dsimp only
  rw [if_pos hlim]
  have happ1 : (g_node_append st.tree lvl (some st.tags.length)).fst =
      (st.tree.set lvl { st.tree.getD lvl {} with
        children := (st.tree.getD lvl {}).children ++ [st.tree.length] }) ++
      [{ tagIdx := some st.tags.length, parent := some lvl,
         children := [] }] := rfl
  have happ2 : (g_node_append st.tree lvl (some st.tags.length)).snd =
      st.tree.length := rfl
  rw [happ1, happ2]
  set pn := st.tree.getD lvl ({} : GNode) with hpn
  set nd : GNode :=
    { tagIdx := some st.tags.length, parent := some lvl, children := [] }
    with hnd
  set A := st.tree.set lvl { pn with children := pn.children ++ [st.tree.length] }
    with hA
  have hAlen : A.length = st.tree.length := by rw [hA]; simp
  have hndp : nd.parent = some lvl := by rw [hnd]
  have hgetlast : (A ++ [nd]).getD st.tree.length ({} : GNode) = nd := by
    rw [← hAlen]
    exact getD_append_last A nd {}
  have hlen2 : (A ++ [nd]).length = st.tree.length + 1 := by
    simp [hAlen]
  have hnodeagree : ∀ i, i < st.tree.length →
      ((A ++ [nd]).getD i {}).tagIdx = (st.tree.getD i {}).tagIdx ∧
      ((A ++ [nd]).getD i {}).parent = (st.tree.getD i {}).parent := by
    intro i hi
    rw [List.getD_append _ _ _ _ (by rw [hAlen]; exact hi)]
    by_cases hil : i = lvl
    · rw [hil, hA, getD_set_self _ _ _ _ hwf_lvl]
      exact ⟨rfl, rfl⟩
    · rw [hA, getD_set_ne _ _ _ _ _ (fun he => hil he.symm)]
      exact ⟨rfl, rfl⟩
  have htagsagree : ∀ n ∈ st.tree, ∀ ti, n.tagIdx = some ti →
      (st.tags ++ [tag2]).getD ti {} = st.tags.getD ti {} := by
    intro n hn ti hti
    exact List.getD_append _ _ _ _ (hwf_tag n hn ti hti)
  have hvalid : ∀ c, (some lvl : Option Nat) = some c →
      c < st.tree.length := by
    intro c hc
    cases hc
    exact hwf_lvl
  have hwalk := balanceWalk_eq_find st.tags (st.tags ++ [tag2]) st.tree
    (A ++ [nd]) tag2.id hnodeagree htagsagree hwf_par
    (st.tree.length + 1) (some lvl) hvalid
  cases hfind : (ancestorChain st.tree (st.tree.length + 1)
      (some lvl)).find? (sameOpenId st.tags st.tree tag2.id) with
  | none =>
    have hres : rspamd_html_check_balance
        { tags := st.tags ++ [tag2], tree := A ++ [nd],
          hcFlags := st.hcFlags, total_tags := st.total_tags,
          cur_level := some lvl, balanced := st.balanced }
        st.tree.length st.tags.length =
        (false,
         { tags := st.tags ++ [tag2], tree := A ++ [nd],
           hcFlags := st.hcFlags, total_tags := st.total_tags,
           cur_level := some lvl, balanced := st.balanced }) := by
      unfold rspamd_html_check_balance
      dsimp only
      rw [getD_append_last st.tags tag2]
      rw [if_pos hcl2]
      rw [hgetlast, hndp, hlen2, hwalk, hfind]
    rw [hres]
    rfl
  | some a =>
    have ha_mem : a ∈ ancestorChain st.tree (st.tree.length + 1) (some lvl) :=
      List.mem_of_find?_eq_some hfind
    have ha_lt : a < st.tree.length :=
      ancestorChain_mem_lt st.tree hwf_par _ _ hvalid a ha_mem
    obtain ⟨hati, hapar⟩ := hnodeagree a ha_lt
    have ha_some : (st.tree.getD a {}).tagIdx.isSome :=
      ancestorChain_tag_isSome st.tree _ _ a ha_mem
    obtain ⟨ta, hta⟩ := Option.isSome_iff_exists.mp ha_some
    have hta_lt : ta < st.tags.length :=
      hwf_tag _ (getD_mem _ a {} ha_lt) ta hta
    have hdest : g_node_destroy_leaf (A ++ [nd]) st.tree.length =
        st.tree.set lvl { pn with
          children := (pn.children ++ [st.tree.length]).filter
            (fun c => c ≠ st.tree.length) } := by
      unfold g_node_destroy_leaf
      rw [hgetlast, hndp]
      dsimp only
      have hgl : (A ++ [nd]).getD lvl ({} : GNode) =
          { pn with children := pn.children ++ [st.tree.length] } := by
        rw [List.getD_append _ _ _ _ (by rw [hAlen]; exact hwf_lvl), hA,
          getD_set_self _ _ _ _ hwf_lvl]
      rw [hgl]
      rw [List.set_append]
      rw [if_pos (show lvl < A.length from by rw [hAlen]; exact hwf_lvl)]
      rw [hA, List.set_set]
      rw [take_len_append _ _ _ (by simp)]
    have hres : rspamd_html_check_balance
        { tags := st.tags ++ [tag2], tree := A ++ [nd],
          hcFlags := st.hcFlags, total_tags := st.total_tags,
          cur_level := some lvl, balanced := st.balanced }
        st.tree.length st.tags.length =
        (true,
         { tags := (st.tags ++ [tag2]).set
             (((A ++ [nd]).getD a {}).tagIdx.getD 0)
             { (st.tags ++ [tag2]).getD
                 (((A ++ [nd]).getD a {}).tagIdx.getD 0) {} with
               flags := { ((st.tags ++ [tag2]).getD
                   (((A ++ [nd]).getD a {}).tagIdx.getD 0) {}).flags with
                 fl_closed := true } },
           tree := g_node_destroy_leaf (A ++ [nd]) st.tree.length,
           hcFlags := st.hcFlags, total_tags := st.total_tags,
           cur_level := ((A ++ [nd]).getD a {}).parent,
           balanced := st.balanced }) := by
      unfold rspamd_html_check_balance
      dsimp only
      rw [getD_append_last st.tags tag2]
      rw [if_pos hcl2]
      rw [hgetlast, hndp, hlen2, hwalk, hfind]
    rw [hati, hta] at hres
    simp only [Option.getD_some] at hres
    rw [hapar, List.getD_append _ _ _ _ hta_lt, hdest] at hres
    rw [hres]
    dsimp only
    rw [hta]
    rfl

/-- Prologue reduction in the normal case (non-empty tree, budget not yet
exceeded): only the tag is appended to the arena. -/
theorem prologue_normal (st0 : TreeState) (tag : HtmlTag)
    (hne : st0.tree ≠ []) (hlim : ¬ st0.total_tags > max_tags) :
    processTag_prologue st0 tag =
      ({ st0 with tags := st0.tags ++ [tag] }, st0.tags.length) := by
  have hne' : st0.tree.isEmpty = false := by
    cases t : st0.tree with
    | nil => exact absurd t hne
    | cons a l => rfl
  unfold processTag_prologue
  dsimp only
  rw [hne']
  rw [if_neg (by decide : ¬ (false = true))]
  dsimp only
  rw [if_neg hlim]

/-- C2: for every emitted closing block tag (FL_CLOSING set, block
content model, known id), the tree builder seeks — walking up the
ancestor chain from the current open node — the nearest ancestor with
the same id whose FL_CLOSED is not yet set; if one exists it marks that
ancestor FL_CLOSED, moves the current level to that ancestor\'s parent,
and destroys the closing node (the tree keeps its size and retains no
node carrying the closing tag), reporting balanced; if no such ancestor
exists, the UNBALANCED content flag is set. -/
theorem closing_block_tag_balances (st0 : TreeState) (tag : HtmlTag)
    (lvl : Nat)
    (hlvl : st0.cur_level = some lvl)
    (hlim : st0.total_tags < max_tags)
    (hne : st0.tree ≠ [])
    (hid : ¬ tag.id = -1)
    (hinl : tag.flags.cm_inline = false)
    (hemp : tag.flags.cm_empty = false)
    (hcl : tag.flags.fl_closing = true)
    (hwf_par : ∀ n ∈ st0.tree, ∀ p, n.parent = some p → p < st0.tree.length)
    (hwf_tag : ∀ n ∈ st0.tree, ∀ ti, n.tagIdx = some ti →
        ti < st0.tags.length)
    (hwf_lvl : lvl < st0.tree.length) :
    match (ancestorChain st0.tree (st0.tree.length + 1) (some lvl)).find?
        (sameOpenId st0.tags st0.tree tag.id) with
    | some a =>
      ((rspamd_html_process_tag st0 tag).snd.fst.tags.getD
          ((st0.tree.getD a {}).tagIdx.getD 0) {}).flags.fl_closed = true ∧
      (rspamd_html_process_tag st0 tag).snd.fst.cur_level =
        (st0.tree.getD a {}).parent ∧
      (rspamd_html_process_tag st0 tag).snd.fst.tree.length =
        st0.tree.length ∧
      (∀ n ∈ (rspamd_html_process_tag st0 tag).snd.fst.tree,
        n.tagIdx ≠ some st0.tags.length) ∧
      (rspamd_html_process_tag st0 tag).snd.fst.balanced = true
    | none =>
      (rspamd_html_process_tag st0 tag).snd.fst.hcFlags.unbalanced =
        true := by
  have hred : rspamd_html_process_tag st0 tag =
      ((processTag_blockClosing
          { st0 with
            tags := st0.tags ++ [{ tag with parentNode := st0.cur_level }] }
          st0.tags.length).fst,
       (processTag_blockClosing
          { st0 with
            tags := st0.tags ++ [{ tag with parentNode := st0.cur_level }] }
          st0.tags.length).snd,
       st0.tags.length) := by
    unfold rspamd_html_process_tag
    dsimp only
    rw [prologue_normal st0 tag hne (by omega)]
    dsimp only
    unfold processTag_dispatch
    rw [if_neg (by simp [hid])]
    dsimp only
    unfold setTagAt
    dsimp only
    rw [getD_append_last, set_append_last]
    rw [if_pos (by rw [hinl, hemp]; rfl), if_pos (by rw [hcl]; rfl)]
  have hspec := blockClosing_spec st0
    { tag with parentNode := st0.cur_level } lvl hlvl hlim hcl
    hwf_par hwf_tag hwf_lvl
  have hid2 : ({ tag with parentNode := st0.cur_level } : HtmlTag).id =
      tag.id := rfl
  rw [hid2] at hspec
  cases hfind : (ancestorChain st0.tree (st0.tree.length + 1)
      (some lvl)).find? (sameOpenId st0.tags st0.tree tag.id) with
  | some a =>
    have ha_mem : a ∈ ancestorChain st0.tree (st0.tree.length + 1)
        (some lvl) := List.mem_of_find?_eq_some hfind
    have ha_lt : a < st0.tree.length :=
      ancestorChain_mem_lt st0.tree hwf_par _ _
        (fun c hc => by cases hc; exact hwf_lvl) a ha_mem
    obtain ⟨ta, hta⟩ := Option.isSome_iff_exists.mp
      (ancestorChain_tag_isSome st0.tree _ _ a ha_mem)
    have hta_lt : ta < st0.tags.length :=
      hwf_tag _ (getD_mem _ a {} ha_lt) ta hta
    have htaeq : (st0.tree.getD a {}).tagIdx.getD 0 = ta := by
      rw [hta]; rfl
    dsimp only
    rw [hred]
    dsimp only
    rw [hspec, hfind]
    dsimp only
    refine ⟨?_, rfl, by simp, ?_, rfl⟩
    · rw [htaeq, getD_set_self _ _ _ _ (by rw [List.length_append]; omega)]
    · intro n hn hcontra
      rcases List.mem_or_eq_of_mem_set hn with hn2 | rfl
      · exact absurd (hwf_tag n hn2 _ hcontra) (by omega)
      · have := hwf_tag _ (getD_mem _ lvl {} hwf_lvl) _ hcontra
        omega
  | none =>
    dsimp only
    rw [hred]
    dsimp only
    rw [hspec, hfind]

def c2_state : TreeState :=
  { tags := [{ id := 1, flags := { fl_block := true } }],
    tree := [{ children := [1] },
             { tagIdx := some 0, parent := some 0 }],
    total_tags := 1,
    cur_level := some 1 }

def c2_tag : HtmlTag :=
  { id := 1, flags := { fl_block := true, fl_closing := true } }

theorem closing_block_tag_balances_witness :
    c2_state.cur_level = some 1 ∧
    c2_state.total_tags < max_tags ∧
    c2_state.tree ≠ [] ∧
    ¬ c2_tag.id = -1 ∧
    c2_tag.flags.fl_closing = true ∧
    ((rspamd_html_process_tag c2_state c2_tag).snd.fst.tags.getD 0
        {}).flags.fl_closed = true ∧
    (rspamd_html_process_tag c2_state c2_tag).snd.fst.cur_level = some 0 ∧
    (rspamd_html_process_tag c2_state c2_tag).snd.fst.tree.length = 2 ∧
    (rspamd_html_process_tag c2_state c2_tag).snd.fst.balanced = true := by
  have h := closing_block_tag_balances c2_state c2_tag 1 rfl (by decide)
      (by decide) (by decide) rfl rfl rfl
      (by
        intro n hn p hp
        rcases List.mem_cons.mp hn with rfl | hn2
        · simp at hp
        · rcases List.mem_cons.mp hn2 with rfl | hn3
          · simp at hp
            have hp0 : p = 0 := by omega
            subst hp0
            decide
          · simp at hn3)
      (by
        intro n hn ti hti
        rcases List.mem_cons.mp hn with rfl | hn2
        · simp at hti
        · rcases List.mem_cons.mp hn2 with rfl | hn3
          · simp at hti
            have ht0 : ti = 0 := by omega
            subst ht0
            decide
          · simp at hn3)
      (by decide)
  exact ⟨rfl, by decide, by decide, by decide, rfl,
    h.1, h.2.1, h.2.2.1, h.2.2.2.2⟩

/-! ### Claim C8: the initial background color -/

/-- Components of `union html_color` (`d.comp`), 8-bit each. -/
structure HtmlColorComp where
  r : Nat := 0
  g : Nat := 0
  b : Nat := 0
  alpha : Nat := 0
deriving DecidableEq, Repr

/-- `struct html_color`: the component view plus the validity bit. -/
structure HtmlColor where
  comp : HtmlColorComp := {}
  valid : Bool := false
deriving DecidableEq, Repr

/-- The default background color `rspamd_html_process_part_full` installs
in the content root before the parsing loop (html.cxx 1984-1989): the
source sets `alpha` to 0, `r`, `g`, `b` to 255 and marks the color
valid. -/
def initial_bgcolor : HtmlColor :=
  { comp := { r := 255, g := 255, b := 255, alpha := 0 }, valid := true }

/-- C8 counterexample: the initial global bgcolor is not fully opaque —
html.cxx:1985 sets the alpha component to 0, not 255 as the claim
states. -/
theorem initial_bgcolor_alpha_zero :
    initial_bgcolor.comp.alpha = 0 ∧ initial_bgcolor.comp.alpha ≠ 255 := by
  decide

/-- C8 (amended): at the start of processing, before any tag is handled,
the content root\'s global bgcolor is valid white with zero alpha:
r = g = b = 255, alpha = 0, valid = true. -/
theorem initial_bgcolor_white_zero_alpha :
    initial_bgcolor.comp.r = 255 ∧ initial_bgcolor.comp.g = 255 ∧
    initial_bgcolor.comp.b = 255 ∧ initial_bgcolor.comp.alpha = 0 ∧
    initial_bgcolor.valid = true := by
  decide

/-! ### URLs: `struct rspamd_url` as html.cxx consumes it -/

/-- The fields of `struct rspamd_url` the HTML processor reads or
writes; the flag bits used here become booleans. -/
structure RspamdUrl where
  hostlen : Nat := 0
  userlen : Nat := 0
  tldlen : Nat := 0
  querylen : Nat := 0
  protocol_unknown : Bool := false
  protocol_mailto : Bool := false
  flag_no_tld : Bool := false
  flag_obscured : Bool := false
  flag_schemaless : Bool := false
  flag_query : Bool := false
  flag_image : Bool := false
  count : Nat := 1
  urlBytes : List Byte := []
  queryBytes : List Byte := []
  hostBytes : List Byte := []
  protocollen : Nat := 0
  datalen : Nat := 0
  visible_part : List Byte := []
  flag_display : Bool := false
  flag_from_text : Bool := false
  flag_html_displayed : Bool := false
deriving DecidableEq, Repr

/-! ### Claim C10: mailto URLs with an empty user in a query string -/

/-- `rspamd_html_url_query_callback` (html.cxx 912-939).  The khash URL
set is a list; `set_add` is the external
`rspamd_url_set_add_or_increase` (url.c is not among the sources):
it reports whether the URL was newly added and returns the updated set.
The result is (C return value, the possibly flagged URL, the updated
set, the updated part_urls). -/
def rspamd_html_url_query_callback
    (set_add : List RspamdUrl → RspamdUrl → Bool × List RspamdUrl)
    (url_set : List RspamdUrl) (part_urls : Option (List RspamdUrl))
    (url : RspamdUrl) :
    Bool × RspamdUrl × List RspamdUrl × Option (List RspamdUrl) :=
  if url.protocol_mailto && url.userlen == 0 then
    (false, url, url_set, part_urls)
  else
    let url2 := { url with flag_query := true }
    let r := set_add url_set url2
    if r.fst then
      match part_urls with
      | some l => (true, url2, r.snd, some (l ++ [url2]))
      | none => (true, url2, r.snd, none)
    else
      (true, url2, r.snd, part_urls)

/-- C10: a URL discovered in the query string of an href URL whose
protocol is mailto and whose user part has zero length is rejected by
the query callback before the QUERY flag is set: the callback returns
FALSE and leaves the URL, the URL set and part_urls unchanged. -/
theorem mailto_empty_user_rejected
    (set_add : List RspamdUrl → RspamdUrl → Bool × List RspamdUrl)
    (url_set : List RspamdUrl) (part_urls : Option (List RspamdUrl))
    (url : RspamdUrl)
    (hm : url.protocol_mailto = true) (hu : url.userlen = 0) :
    rspamd_html_url_query_callback set_add url_set part_urls url =
      (false, url, url_set, part_urls) := by
  unfold rspamd_html_url_query_callback
  rw [if_pos (by rw [hm, hu]; rfl)]

def c10_add : List RspamdUrl → RspamdUrl → Bool × List RspamdUrl :=
  fun s u => (true, s ++ [u])

def c10_url : RspamdUrl := { protocol_mailto := true, userlen := 0 }

theorem mailto_empty_user_rejected_witness :
    c10_url.protocol_mailto = true ∧ c10_url.userlen = 0 ∧
    rspamd_html_url_query_callback c10_add [] (some []) c10_url =
      (false, c10_url, [], some []) :=
  ⟨rfl, rfl, mailto_empty_user_rejected c10_add [] (some []) c10_url rfl rfl⟩

/-! ### Claim C3: `rspamd_html_process_url` validation -/

/-- `rspamd_substring_search(hay, len, pat, plen) != -1` (the external
search used at html.cxx:700): the pattern occurs somewhere in the
haystack. -/
def containsSub (hay pat : List Byte) : Bool :=
  hay.tails.any (fun t => pat.isPrefixOf t)

/-- Outcome of the scheme scan of html.cxx 700-740: the input has no
"://": either bail out (`return NULL`, first byte already invalid), or
synthesize a scheme (`no_prefix = TRUE` with the chosen scheme bytes),
or keep the input as is. -/
inductive PrefDecision where
  | noData
  | keep
  | withPref (pre : List Byte)
deriving DecidableEq, Repr

/-- The byte scan of html.cxx 708-740: find the first byte that is
neither high-bit nor alphanumeric and decide the scheme synthesis from
it ("//" start, an @, an embedded colon, or a bare word). -/
def url_pref_scan (s : List Byte) (len : Nat) : Nat → Nat → PrefDecision
  | _, 0 => PrefDecision.keep
  | i, fuel + 1 =>
    if i < len then
      let b := s.getD i 0
      if b ≥ 0x80 || g_ascii_isalnum b then url_pref_scan s len (i + 1) fuel
      else if i == 0 && len > 2 && b == 47 && s.getD (i + 1) 0 == 47 then
        PrefDecision.withPref (strBytes "http:")
      else if b == 64 then PrefDecision.withPref (strBytes "mailto://")
      else if b == 58 && i ≠ 0 then PrefDecision.keep
      else if i == 0 then PrefDecision.noData
      else PrefDecision.withPref (strBytes "http://")
    else PrefDecision.keep

/-- Head- and tail-space stripping of html.cxx 664-687. -/
def url_stripped (start : List Byte) : List Byte :=
  ((start.dropWhile (fun b => g_ascii_isspace b)).reverse.dropWhile
    (fun b => g_ascii_isspace b)).reverse

/-- The scheme decision of html.cxx 700-740 on the stripped URL: keep
when "://" occurs or a mailto:/tel:/callto: head is present (with the
source\'s `len >= sizeof("mailto:")` bound), otherwise scan. -/
def url_pref_decision (s2 : List Byte) : PrefDecision :=
  if containsSub s2 (strBytes "://") then PrefDecision.keep
  else if s2.length ≥ 8 &&
      ((strBytes "mailto:").isPrefixOf s2 ||
       (strBytes "tel:").isPrefixOf s2 ||
       (strBytes "callto:").isPrefixOf s2) then
    PrefDecision.keep
  else url_pref_scan s2 s2.length 0 s2.length

def hexdigests : List Byte := strBytes "0123456789abcdef"

/-- The encode pass of html.cxx 753-769: drop spaces, percent-encode
low non-graphic bytes (recording `has_bad_chars`), copy the rest. -/
def url_encode_pass : List Byte → List Byte × Bool
  | [] => ([], false)
  | b :: rest =>
    let r := url_encode_pass rest
    if g_ascii_isspace b then r
    else if b < 0x80 && !(g_ascii_isgraph b) then
      (37 :: hexdigests.getD ((b >>> 4) &&& 0xf) 0 ::
         hexdigests.getD (b &&& 0xf) 0 :: r.fst, true)
    else (b :: r.fst, r.snd)

/-- `if (has_bad_chars) url->flags |= RSPAMD_URL_FLAG_OBSCURED`
(html.cxx 784-786). -/
def mark_obscured (bad : Bool) (u : RspamdUrl) : RspamdUrl :=
  if bad then { u with flag_obscured := true } else u

theorem mark_obscured_fields (b : Bool) (u : RspamdUrl) :
    (mark_obscured b u).hostlen = u.hostlen ∧
    (mark_obscured b u).protocol_unknown = u.protocol_unknown ∧
    (mark_obscured b u).tldlen = u.tldlen ∧
    (mark_obscured b u).flag_no_tld = u.flag_no_tld := by
  cases b <;> simp [mark_obscured]

/-- The parse-and-filter phase of html.cxx 772-817.  `urlParse` is the
external `rspamd_url_normalise_propagate_flags` + `rspamd_url_parse`
pipeline (url.c is not among the sources): none models `rc !=
URI_ERRNO_OK`. -/
def url_parse_phase (urlParse : List Byte → Option RspamdUrl)
    (enc : List Byte × Bool) (pre : List Byte) (noPref : Bool) :
    Option RspamdUrl :=
  match urlParse (pre ++ enc.fst) with
  | none => none
  | some url =>
    if url.hostlen > 0 && !url.protocol_unknown then
      let url1 := mark_obscured enc.snd url
      if noPref then
        let url2 := { url1 with flag_schemaless := true }
        if url2.tldlen == 0 || url2.flag_no_tld then none
        else some url2
      else some url1
    else none

/-- `rspamd_html_process_url` (html.cxx 647-818) over the external
parser oracle. -/
def rspamd_html_process_url (urlParse : List Byte → Option RspamdUrl)
    (start : List Byte) : Option RspamdUrl :=
  match url_pref_decision (url_stripped start) with
  | PrefDecision.noData => none
  | PrefDecision.keep =>
    url_parse_phase urlParse (url_encode_pass (url_stripped start)) [] false
  | PrefDecision.withPref pre =>
    url_parse_phase urlParse (url_encode_pass (url_stripped start)) pre true

/-- The decoded buffer handed to the external URL parser. -/
def url_decoded (start : List Byte) : List Byte :=
  match url_pref_decision (url_stripped start) with
  | PrefDecision.withPref pre =>
    pre ++ (url_encode_pass (url_stripped start)).fst
  | _ => (url_encode_pass (url_stripped start)).fst

theorem url_parse_phase_valid (urlParse : List Byte → Option RspamdUrl)
    (enc : List Byte × Bool) (pre : List Byte) (noPref : Bool)
    (u : RspamdUrl) (h : url_parse_phase urlParse enc pre noPref = some u) :
    u.hostlen > 0 ∧ u.protocol_unknown = false ∧
    ∃ w, urlParse (pre ++ enc.fst) = some w ∧ w.hostlen > 0 ∧
      w.protocol_unknown = false := by
  unfold url_parse_phase at h
  cases hp : urlParse (pre ++ enc.fst) with
  | none => rw [hp] at h; exact Option.noConfusion h
  | some url =>
    rw [hp] at h
    dsimp only at h
    split at h
    case isFalse => exact Option.noConfusion h
    case isTrue hcond =>
      have h1 : url.hostlen > 0 := by
        have hc := hcond
        simp only [Bool.and_eq_true, decide_eq_true_eq] at hc
        exact hc.1
      have h2 : url.protocol_unknown = false := by
        cases hpu : url.protocol_unknown
        · rfl
        · rw [hpu] at hcond; simp at hcond
      have hu1 : u.hostlen = url.hostlen ∧
          u.protocol_unknown = url.protocol_unknown := by
        split at h
        · split at h
          · exact Option.noConfusion h
          · cases h
            exact ⟨(mark_obscured_fields enc.snd url).1,
                   (mark_obscured_fields enc.snd url).2.1⟩
        · cases h
          exact ⟨(mark_obscured_fields enc.snd url).1,
                 (mark_obscured_fields enc.snd url).2.1⟩
      exact ⟨by rw [hu1.1]; exact h1, by rw [hu1.2]; exact h2,
        url, rfl, h1, h2⟩

theorem url_parse_phase_schemaless_reject
    (urlParse : List Byte → Option RspamdUrl)
    (enc : List Byte × Bool) (pre : List Byte) (w : RspamdUrl)
    (hp : urlParse (pre ++ enc.fst) = some w)
    (hbad : w.tldlen = 0 ∨ w.flag_no_tld = true) :
    url_parse_phase urlParse enc pre true = none := by
  unfold url_parse_phase
  rw [hp]
  dsimp only
  split
  · rw [if_pos (rfl : true = true)]
    split
    · rfl
    · next hcnd =>
        exfalso
        apply hcnd
        rcases hbad with hbad | hbad <;>
          simp [(mark_obscured_fields enc.snd w).2.2.1,
                (mark_obscured_fields enc.snd w).2.2.2, hbad]
  · rfl

/-- C3: the URL sanitizer returns a URL only when the external parse
succeeds with a non-zero host length and a known protocol; and whenever
the scheme had to be synthesized (no "://" and no mailto/tel/callto
head), a parse result with a zero TLD length or the NO_TLD flag makes
it return none.  Callers (href/src/action handling) therefore only ever
receive URLs with hostlen > 0 and a known protocol. -/
theorem process_url_validates (urlParse : List Byte → Option RspamdUrl)
    (start : List Byte) :
    (∀ u, rspamd_html_process_url urlParse start = some u →
      u.hostlen > 0 ∧ u.protocol_unknown = false ∧
      ∃ w, urlParse (url_decoded start) = some w ∧ w.hostlen > 0 ∧
        w.protocol_unknown = false) ∧
    (∀ pre w, url_pref_decision (url_stripped start) =
        PrefDecision.withPref pre →
      urlParse (pre ++ (url_encode_pass (url_stripped start)).fst) =
        some w →
      (w.tldlen = 0 ∨ w.flag_no_tld = true) →
      rspamd_html_process_url urlParse start = none) := by
  constructor
  · intro u h
    unfold rspamd_html_process_url at h
    cases hd : url_pref_decision (url_stripped start) with
    | noData =>
      simp only [hd] at h
      exact Option.noConfusion h
    | keep =>
      simp only [hd] at h
      obtain ⟨h1, h2, w, hw, hw1, hw2⟩ := url_parse_phase_valid _ _ _ _ _ h
      rw [List.nil_append] at hw
      have hdec : url_decoded start =
          (url_encode_pass (url_stripped start)).fst := by
        unfold url_decoded
        rw [hd]
      rw [hdec]
      exact ⟨h1, h2, w, hw, hw1, hw2⟩
    | withPref pre =>
      simp only [hd] at h
      obtain ⟨h1, h2, w, hw, hw1, hw2⟩ := url_parse_phase_valid _ _ _ _ _ h
      have hdec : url_decoded start =
          pre ++ (url_encode_pass (url_stripped start)).fst := by
        unfold url_decoded
        rw [hd]
      rw [hdec]
      exact ⟨h1, h2, w, hw, hw1, hw2⟩
  · intro pre w hdec hw hbad
    unfold rspamd_html_process_url
    rw [hdec]
    exact url_parse_phase_schemaless_reject _ _ _ _ hw hbad

def c3_parse : List Byte → Option RspamdUrl :=
  fun _ => some { hostlen := 4, tldlen := 2 }

def c3_start : List Byte := strBytes " a.io "

def c3_result : RspamdUrl :=
  { hostlen := 4, tldlen := 2, flag_schemaless := true }

theorem process_url_validates_witness :
    rspamd_html_process_url c3_parse c3_start = some c3_result ∧
    c3_result.hostlen > 0 ∧ c3_result.protocol_unknown = false := by
  have h := (process_url_validates c3_parse c3_start).1 c3_result (by decide)
  exact ⟨by decide, h.1, h.2.1⟩

/-! ### Tag ids and numeric parsing models for the full processor -/

/-- Tag ids used by html.cxx.  The tag registry header and the `Tag_*`
enum are not among the sources; the ids are modelled as distinct
constants, with -1 the unknown id as the code uses it. -/
def Tag_A : Int := 1
def Tag_BASE : Int := 2
def Tag_BODY : Int := 3
def Tag_BR : Int := 4
def Tag_DIV : Int := 5
def Tag_HR : Int := 6
def Tag_IMG : Int := 7
def Tag_LINK : Int := 8
def Tag_P : Int := 9
def Tag_STYLE : Int := 10
def Tag_TR : Int := 11
def N_TAGS : Int := 100

/-- Leading decimal digits of a byte list: (value, digit count). -/
def leadDigits : List Byte → Nat × Nat
  | [] => (0, 0)
  | b :: rest =>
    if g_ascii_isdigit b then
      let r := leadDigits rest
      ((b - 48) * 10 ^ r.snd + r.fst, r.snd + 1)
    else (0, 0)

/-- `rspamd_strtoul` (not among the sources): parse the leading decimal
digits of the slice; fails when the slice does not start with a
digit. -/
def rspamd_strtoul (s : List Byte) : Option Nat :=
  if s ≠ [] && g_ascii_isdigit (s.getD 0 0) then some (leadDigits s).fst
  else none

/-- libc `strtod` (external) modelled on the inputs this code feeds it:
optional integral digits, optional fraction.  Returns the value as a
rational and the number of bytes consumed. -/
def strtod_model (s : List Byte) : Rat × Nat :=
  let ip := leadDigits s
  let rest := s.drop ip.snd
  if rest.getD 0 0 == 46 then
    let fp := leadDigits (rest.drop 1)
    if fp.snd = 0 then ((ip.fst : Rat), ip.snd)
    else ((ip.fst : Rat) + (fp.fst : Rat) / ((10 : Rat) ^ fp.snd),
          ip.snd + 1 + fp.snd)
  else ((ip.fst : Rat), ip.snd)

/-- The `(guint)` cast of a non-negative double. -/
def ratToGuint (q : Rat) : Nat := q.floor.toNat

def hexVal (b : Byte) : Nat :=
  if g_ascii_isdigit b then b - 48
  else if 97 ≤ b && b ≤ 102 then b - 87
  else if 65 ≤ b && b ≤ 70 then b - 55
  else 0

def isHexDigit (b : Byte) : Bool :=
  g_ascii_isdigit b || (97 ≤ b && b ≤ 102) || (65 ≤ b && b ≤ 70)

/-- `strtoul(_, NULL, 16)` on the copied hex buffer: leading hex
digits. -/
def hexParse (s : List Byte) : Nat :=
  (s.takeWhile (fun b => isHexDigit b)).foldl
    (fun acc b => acc * 16 + hexVal b) 0

/-- `rspamd_substring_search_caseless` (external): ASCII-lowercase both
sides and search. -/
def containsSubCaseless (hay pat : List Byte) : Bool :=
  containsSub (hay.map (fun b => g_ascii_tolower b))
    (pat.map (fun b => g_ascii_tolower b))

/-- `rspamd_substring_search` returning the first offset, for the
`content_style` scan. -/
def findSub (hay pat : List Byte) : Option Nat :=
  (List.range (hay.length + 1)).find? (fun k => pat.isPrefixOf (hay.drop k))

/-! ### `rspamd_html_process_color` (html.cxx 1208-1378) -/

inductive RgbState where
  | obrace | num1 | num2 | num3 | num4 | skip_spaces
deriving DecidableEq, Repr

/-- Accumulator of the `rgb(a)(...)` scanner: the four channels and the
`valid` flag. -/
structure RgbAcc where
  r : Nat := 0
  g : Nat := 0
  b : Nat := 0
  opacity : Nat := 255
  valid : Bool := false
deriving DecidableEq, Repr

/-- The `rgb(a)(...)` while loop of html.cxx 1246-1352; returning the
accumulator models `goto stop`. -/
def rgbLoop (s : List Byte) (len : Nat) :
    Nat → Nat → Nat → RgbState → RgbState → RgbAcc → RgbAcc
  | 0, _, _, _, _, acc => acc
  | fuel + 1, p, c, state, ns, acc =>
    if p < len then
      let b := s.getD p 0
      match state with
      | RgbState.obrace =>
        if b == 40 then
          rgbLoop s len fuel (p + 1) c RgbState.skip_spaces RgbState.num1 acc
        else if g_ascii_isspace b then
          rgbLoop s len fuel p c RgbState.skip_spaces RgbState.obrace acc
        else acc
      | RgbState.num1 =>
        if b == 44 then
          match rspamd_strtoul (inputSlice s c p) with
          | none => acc
          | some v =>
            rgbLoop s len fuel (p + 1) c RgbState.skip_spaces RgbState.num2
              { acc with r := v }
        else if !(g_ascii_isdigit b) then acc
        else rgbLoop s len fuel (p + 1) c state ns acc
      | RgbState.num2 =>
        if b == 44 then
          match rspamd_strtoul (inputSlice s c p) with
          | none => acc
          | some v =>
            rgbLoop s len fuel (p + 1) c RgbState.skip_spaces RgbState.num3
              { acc with g := v }
        else if !(g_ascii_isdigit b) then acc
        else rgbLoop s len fuel (p + 1) c state ns acc
      | RgbState.num3 =>
        if b == 44 then
          match rspamd_strtoul (inputSlice s c p) with
          | none => acc
          | some v =>
            rgbLoop s len fuel (p + 1) c RgbState.skip_spaces RgbState.num4
              { acc with b := v, valid := true }
        else if b == 41 then
          match rspamd_strtoul (inputSlice s c p) with
          | none => acc
          | some v => { acc with b := v, valid := true }
        else if !(g_ascii_isdigit b) then acc
        else rgbLoop s len fuel (p + 1) c state ns acc
      | RgbState.num4 =>
        if b == 44 || b == 41 then
          match rspamd_strtoul (inputSlice s c p) with
          | none => acc
          | some v => { acc with opacity := v, valid := true }
        else if !(g_ascii_isdigit b) then acc
        else rgbLoop s len fuel (p + 1) c state ns acc
      | RgbState.skip_spaces =>
        if !(g_ascii_isspace b) then rgbLoop s len fuel p p ns ns acc
        else rgbLoop s len fuel (p + 1) c state ns acc
    else acc

/-- `rspamd_html_process_color` (html.cxx 1208-1378).  `namedColor` is
the external CSS named-color lookup
(`css_value::maybe_color_from_string`, the CSS library is not among the
sources), returning the packed color number.  The union overlay of
`d.val` over `d.comp` follows the spec\'s reading (#RRGGBB).  Note the
named-color branch does not set `valid`, exactly as the source does
not. -/
def rspamd_html_process_color (namedColor : List Byte → Option Nat)
    (line : List Byte) : HtmlColor :=
  let len := line.length
  if line.getD 0 0 == 35 then
    let v := hexParse ((line.drop 1).take 6)
    { comp := { r := (v >>> 16) &&& 0xff, g := (v >>> 8) &&& 0xff,
                b := v &&& 0xff, alpha := 255 },
      valid := true }
  else if len > 4 &&
      (strBytes "rgb").isPrefixOf (line.map (fun b => g_ascii_tolower b)) then
    let st := if line.getD 3 0 == 97 then 4 else 3
    let acc := rgbLoop line len (2 * len + 4) st st RgbState.skip_spaces
      RgbState.obrace {}
    if acc.valid then
      { comp := { r := acc.r &&& 0xff, g := acc.g &&& 0xff,
                  b := acc.b &&& 0xff, alpha := acc.opacity &&& 0xff },
        valid := true }
    else {}
  else
    match namedColor line with
    | some v =>
      { comp := { r := (v >>> 16) &&& 0xff, g := (v >>> 8) &&& 0xff,
                  b := v &&& 0xff, alpha := 255 },
        valid := false }
    | none => {}

/-! ### `rspamd_html_process_css_size` and `_font_size`
(html.cxx 1383-1554) -/

def rspamd_html_process_css_size (suffix : List Byte) (sz : Rat) :
    Option Rat :=
  if suffix.length ≥ 2 then
    if (strBytes "px").isPrefixOf suffix then
      some (ratToGuint sz : Rat)
    else if (strBytes "em").isPrefixOf suffix then
      some (ratToGuint (sz * 16) : Rat)
    else if suffix.length ≥ 3 && (strBytes "rem").isPrefixOf suffix then
      some (ratToGuint (sz * 16) : Rat)
    else if (strBytes "ex").isPrefixOf suffix then
      some (ratToGuint (sz * 8) : Rat)
    else if (strBytes "vw").isPrefixOf suffix then
      some (ratToGuint (sz * 8) : Rat)
    else if (strBytes "vh").isPrefixOf suffix then
      some (ratToGuint (sz * 6) : Rat)
    else if suffix.length ≥ 4 && (strBytes "vmax").isPrefixOf suffix then
      some (ratToGuint (sz * 8) : Rat)
    else if suffix.length ≥ 4 && (strBytes "vmin").isPrefixOf suffix then
      some (ratToGuint (sz * 6) : Rat)
    else if (strBytes "pt").isPrefixOf suffix then
      some (ratToGuint (sz * 96 / 72) : Rat)
    else if (strBytes "cm").isPrefixOf suffix then
      some (ratToGuint (sz * 96 / (127 / 50 : Rat)) : Rat)
    else if (strBytes "mm").isPrefixOf suffix then
      some (ratToGuint (sz * (48 / 5 : Rat) / (127 / 50 : Rat)) : Rat)
    else if (strBytes "in").isPrefixOf suffix then
      some (ratToGuint (sz * 96) : Rat)
    else if (strBytes "pc").isPrefixOf suffix then
      some (ratToGuint (sz * 96 / 6) : Rat)
    else none
  else if suffix.getD 0 0 == 37 then
    some (ratToGuint (sz / 100 * 16) : Rat)
  else none

/-- The failsafe adjustment of html.cxx 1532-1548. -/
def fontSizeFailsafe (is_css : Bool) (sz : Rat) : Rat :=
  if is_css then (if sz < 1 then 0 else 16)
  else (if sz ≥ 1 then sz * 16 else 16)

/-- `rspamd_html_process_font_size` (html.cxx 1479-1554), the final
`guint` store included. -/
def rspamd_html_process_font_size (line : List Byte) (is_css : Bool) :
    Nat :=
  let s := line.dropWhile (fun b => g_ascii_isspace b)
  let sz :=
    if g_ascii_isdigit (s.getD 0 0) then
      let pr := strtod_model s
      let sz0 := pr.fst
      if pr.snd < s.length then
        let e := ((s.drop pr.snd).dropWhile
          (fun b => g_ascii_isspace b)).map (fun b => g_ascii_tolower b)
        match rspamd_html_process_css_size e sz0 with
        | some sz1 => sz1
        | none => fontSizeFailsafe is_css sz0
      else fontSizeFailsafe is_css sz0
    else fontSizeFailsafe is_css (if is_css then 16 else 1)
  ratToGuint (if sz > 32 then (32 : Rat) else sz)

/-! ### `rspamd_html_process_style` (html.cxx 1556-1680) -/

/-- `struct html_block`.  `font_size = 4294967295` is the source\'s
`(guint) -1` sentinel. -/
structure HtmlBlock where
  tagIdx : Option Nat := none
  font_color : HtmlColor := {}
  background_color : HtmlColor := {}
  styleBytes : List Byte := []
  html_class : List Byte := []
  font_size : Nat := 0
  visible : Bool := false
deriving DecidableEq, Repr

inductive StyleState where
  | read_key | read_colon | read_value | skip_spaces
deriving DecidableEq, Repr

/-- Case-insensitive key comparison of the style parser
(`g_ascii_strncasecmp(key, pat, klen) == 0` with the length check). -/
def styleKeyIs (styleB : List Byte) (key klen : Nat) (pat : List Byte) :
    Bool :=
  klen == pat.length &&
    (inputSlice styleB key (key + klen)).map (fun b => g_ascii_tolower b)
      == pat

/-- One recognized `key: value` pair applied to the block
(html.cxx 1602-1655). -/
def applyStyleProp (namedColor : List Byte → Option Nat)
    (styleB : List Byte) (key klen c p : Nat) (bl : HtmlBlock) :
    HtmlBlock :=
  let v := inputSlice styleB c p
  if styleKeyIs styleB key klen (strBytes "color") ||
      styleKeyIs styleB key klen (strBytes "font-color") then
    { bl with font_color := rspamd_html_process_color namedColor v }
  else if styleKeyIs styleB key klen (strBytes "background-color") ||
      styleKeyIs styleB key klen (strBytes "background") then
    { bl with background_color := rspamd_html_process_color namedColor v }
  else if styleKeyIs styleB key klen (strBytes "display") then
    if p - c ≥ 4 && containsSubCaseless v (strBytes "none") then
      { bl with visible := false }
    else bl
  else if styleKeyIs styleB key klen (strBytes "font-size") then
    { bl with font_size := rspamd_html_process_font_size v true }
  else if styleKeyIs styleB key klen (strBytes "opacity") then
    let op := (strtod_model v).fst
    let op := if op > 1 then (1 : Rat) else if op < 0 then 0 else op
    { bl with font_color := { bl.font_color with
        comp := { bl.font_color.comp with
          alpha := ratToGuint (op * 255) &&& 0xff } } }
  else if styleKeyIs styleB key klen (strBytes "visibility") then
    if p - c ≥ 6 && containsSubCaseless v (strBytes "hidden") then
      { bl with visible := false }
    else bl
  else bl

/-- The `while (p <= end)` key/value scanner of html.cxx 1573-1679. -/
def styleLoop (namedColor : List Byte → Option Nat) (styleB : List Byte)
    (len : Nat) :
    Nat → Nat → Nat → Option Nat → Nat → StyleState → StyleState →
      HtmlBlock → HtmlBlock
  | 0, _, _, _, _, _, _, bl => bl
  | fuel + 1, p, c, key, klen, state, ns, bl =>
    if p ≤ len then
      match state with
      | StyleState.read_key =>
        if p == len || styleB.getD p 0 == 58 then
          styleLoop namedColor styleB len fuel (p + 1) c (some c) (p - c)
            StyleState.skip_spaces StyleState.read_value bl
        else if g_ascii_isspace (styleB.getD p 0) then
          styleLoop namedColor styleB len fuel (p + 1) c (some c) (p - c)
            StyleState.skip_spaces StyleState.read_colon bl
        else styleLoop namedColor styleB len fuel (p + 1) c key klen state ns bl
      | StyleState.read_colon =>
        if p == len || styleB.getD p 0 == 58 then
          styleLoop namedColor styleB len fuel (p + 1) c key klen
            StyleState.skip_spaces StyleState.read_value bl
        else styleLoop namedColor styleB len fuel (p + 1) c key klen state ns bl
      | StyleState.read_value =>
        if p == len || styleB.getD p 0 == 59 then
          let bl :=
            match key with
            | some k =>
              if klen ≠ 0 && p > c then
                applyStyleProp namedColor styleB k klen c p bl
              else bl
            | none => bl
          styleLoop namedColor styleB len fuel (p + 1) c none 0
            StyleState.skip_spaces StyleState.read_key bl
        else styleLoop namedColor styleB len fuel (p + 1) c key klen state ns bl
      | StyleState.skip_spaces =>
        if p < len && !(g_ascii_isspace (styleB.getD p 0)) then
          styleLoop namedColor styleB len fuel p p key klen ns ns bl
        else styleLoop namedColor styleB len fuel (p + 1) c key klen state ns bl
    else bl

def rspamd_html_process_style (namedColor : List Byte → Option Nat)
    (styleB : List Byte) (bl : HtmlBlock) : HtmlBlock :=
  styleLoop namedColor styleB styleB.length (2 * styleB.length + 4)
    0 0 none 0 StyleState.skip_spaces StyleState.read_key bl

/-! ### `rspamd_html_process_block_tag` (html.cxx 1682-1765) -/

/-- Block creation from a tag\'s attributes; also returns the possibly
updated global bgcolor (the `Tag_BODY` special case). -/
def rspamd_html_process_block_tag (namedColor : List Byte → Option Nat)
    (tag : HtmlTag) (tagIdx : Nat) (bgcolor : HtmlColor) :
    HtmlBlock × HtmlColor :=
  let bl0 : HtmlBlock :=
    { tagIdx := some tagIdx, visible := true, font_size := 4294967295,
      font_color := { comp := { alpha := 255 } } }
  tag.params.foldl
    (fun acc kv =>
      if kv.snd.length > 0 then
        match kv.fst with
        | html_component_type.COLOR =>
          ({ acc.fst with
             font_color := rspamd_html_process_color namedColor kv.snd },
           acc.snd)
        | html_component_type.BGCOLOR =>
          let nc := rspamd_html_process_color namedColor kv.snd
          ({ acc.fst with background_color := nc },
           if tag.id == Tag_BODY then nc else acc.snd)
        | html_component_type.STYLE =>
          (rspamd_html_process_style namedColor kv.snd
            { acc.fst with styleBytes := kv.snd }, acc.snd)
        | html_component_type.CLASS =>
          ({ acc.fst with html_class := kv.snd }, acc.snd)
        | html_component_type.SIZE =>
          ({ acc.fst with font_size := 16 }, acc.snd)
        | _ => acc
      else acc)
    (bl0, bgcolor)

/-! ### `rspamd_html_propagate_style` (html.cxx 1861-1936) -/

/-- Style propagation from the innermost open block (the tail of the
styles queue) and the global fallbacks; returns the adjusted block and
`push_block`. -/
def rspamd_html_propagate_style (bgcolor : HtmlColor) (bl : HtmlBlock)
    (parent : Option HtmlBlock) : HtmlBlock × Bool :=
  let step1 :=
    match parent with
    | none => (bl, false)
    | some bp =>
      let s1 :=
        if !bl.background_color.valid then
          (if bp.background_color.valid then
             { bl with background_color := bp.background_color }
           else bl, false)
        else (bl, true)
      let s2 :=
        if !s1.fst.font_color.valid then
          (if bp.font_color.valid then
             { s1.fst with font_color := bp.font_color }
           else s1.fst, s1.snd)
        else (s1.fst, true)
      let s3 :=
        if s2.fst.font_size == 4294967295 then
          (if bp.font_size != 4294967295 then
             { s2.fst with font_size := bp.font_size }
           else s2.fst, s2.snd)
        else (s2.fst, true)
      s3
  let s4 :=
    if !step1.fst.font_color.valid then
      ({ step1.fst with font_color :=
          { comp := { r := 0, g := 0, b := 0,
                      alpha := step1.fst.font_color.comp.alpha },
            valid := true } }, step1.snd)
    else (step1.fst, true)
  let s5 :=
    if !s4.fst.background_color.valid then
      ({ s4.fst with background_color := bgcolor }, s4.snd)
    else (s4.fst, true)
  let s6 :=
    if s5.fst.font_size == 4294967295 then
      ({ s5.fst with font_size := 16 }, s5.snd)
    else (s5.fst, true)
  s6

/-! ### External collaborators of the full processor -/

/-- External functions the parsing loop consumes beyond `ExternalFns`
(url.c, the CSS library, unicode handling and image parsing are not
among the sources). -/
structure LoopFns where
  ext : ExternalFns := {}
  /-- CSS named-color lookup (`css_value::maybe_color_from_string`). -/
  namedColor : List Byte → Option Nat := fun _ => none
  /-- `rspamd_url_normalise_propagate_flags` + `rspamd_url_parse`. -/
  urlParse : List Byte → Option RspamdUrl := fun _ => none
  /-- `rspamd_url_find_multiple` over a query string. -/
  findUrlsInQuery : List Byte → List RspamdUrl := fun _ => []
  /-- `rspamd_html_url_is_phished`: (url_found, displayed_url). -/
  urlIsPhished : RspamdUrl → List Byte → Bool × Option RspamdUrl :=
    fun _ _ => (false, none)
  /-- `rspamd_string_unicode_trim_inplace`. -/
  unicodeTrim : List Byte → List Byte := id
  /-- `rspamd_normalise_unicode_inplace`. -/
  normaliseUnicode : List Byte → List Byte := id
  /-- `rspamd_cryptobox_base64_decode`. -/
  base64Decode : List Byte → List Byte := id
  /-- `rspamd_maybe_process_image`: (width, height) when detected. -/
  maybeImage : List Byte → Option (Nat × Nat) := fun _ => none
  /-- `rspamd_css_parse_style` on the opaque accumulated style. -/
  cssParse : List Byte → Nat → Nat := fun _ s => s

/-- Arena update of one URL (C mutation through a `rspamd_url *`). -/
def setUrlAt (urls : List RspamdUrl) (i : Nat) (f : RspamdUrl → RspamdUrl) :
    List RspamdUrl :=
  urls.set i (f (urls.getD i {}))

/-- The khash URL set keyed by the URL string (url.c is not among the
sources; the key equality is modelled as equality of the url bytes). -/
def urlSetFind (urls : List RspamdUrl) (set : List Nat) (u : RspamdUrl) :
    Option Nat :=
  set.find? (fun j => (urls.getD j {}).urlBytes == u.urlBytes)

/-- `rspamd_url_set_add_or_increase`: count up an existing member or add
the new index; returns whether the URL was newly added. -/
def url_set_add_or_increase (urls : List RspamdUrl) (set : List Nat)
    (nidx : Nat) : Bool × List RspamdUrl × List Nat :=
  match urlSetFind urls set (urls.getD nidx {}) with
  | some j =>
    (false, setUrlAt urls j (fun u => { u with count := u.count + 1 }), set)
  | none => (true, urls, set ++ [nidx])

/-! ### `rspamd_html_process_url_tag` (html.cxx 820-903) -/

/-- The effective href value after base-URL resolution
(html.cxx 838-887); none models the `return NULL` for data: URLs under
a base URL. -/
def url_tag_effective_href (base_url : Option RspamdUrl)
    (v : List Byte) : Option (List Byte) :=
  match base_url with
  | none => some v
  | some bu =>
    if v.length > 2 then
      if containsSub v (strBytes "://") then
        if v.getD 0 0 == 47 && v.getD 1 0 != 47 then
          some ((bu.urlBytes.take bu.protocollen) ++ strBytes "://" ++
            bu.hostBytes ++ strBytes "/" ++ v)
        else some v
      else
        if v.length ≥ 6 &&
            (v.take 5).map (fun b => g_ascii_tolower b) ==
              strBytes "data:" then
          none
        else
          some (bu.urlBytes ++
            (if bu.datalen == 0 then strBytes "/" else []) ++ v)
    else some v

/-- `rspamd_html_process_url_tag`: the first non-empty href/src/action
attribute, base-resolved, through the URL sanitizer. -/
def rspamd_html_process_url_tag (fns : LoopFns) (tag : HtmlTag)
    (base_url : Option RspamdUrl) : Option RspamdUrl :=
  match tag.params.find? (fun kv =>
      kv.fst == html_component_type.HREF && kv.snd.length > 0) with
  | none => none
  | some kv =>
    match url_tag_effective_href base_url kv.snd with
    | none => none
    | some start => rspamd_html_process_url fns.urlParse start

/-- `struct rspamd_process_exception` (only the fields written here). -/
structure ProcessException where
  pos : Nat := 0
  len : Nat := 0
  urlIdx : Option Nat := none
deriving DecidableEq, Repr

/-! ### `rspamd_process_html_url` (html.cxx 941-962) -/

/-- One candidate URL found inside the query string, processed as
`rspamd_html_url_query_callback` does on the arena state; the Bool is
the callback\'s return value (FALSE stops the search). -/
def url_query_step (urls : List RspamdUrl) (url_set : Option (List Nat))
    (part_urls : Option (List Nat)) (fu : RspamdUrl) :
    Bool × List RspamdUrl × Option (List Nat) × Option (List Nat) :=
  if fu.protocol_mailto && fu.userlen == 0 then
    (false, urls, url_set, part_urls)
  else
    let fu := { fu with flag_query := true }
    let nidx := urls.length
    let urls := urls ++ [fu]
    match url_set with
    | some s =>
      let r := url_set_add_or_increase urls s nidx
      if r.fst then
        match part_urls with
        | some pl => (true, r.snd.fst, some r.snd.snd, some (pl ++ [nidx]))
        | none => (true, r.snd.fst, some r.snd.snd, none)
      else (true, r.snd.fst, some r.snd.snd, part_urls)
    | none => (true, urls, none, part_urls)

/-- `rspamd_process_html_url`: find URLs in the query string of url
`uidx`, run the query callback on each until one returns FALSE, then
add the url itself to part_urls. -/
def rspamd_process_html_url (fns : LoopFns) (urls : List RspamdUrl)
    (uidx : Nat) (url_set : Option (List Nat))
    (part_urls : Option (List Nat)) :
    List RspamdUrl × Option (List Nat) × Option (List Nat) :=
  let u := urls.getD uidx {}
  let afterQuery :=
    if u.querylen > 0 then
      let folded := (fns.findUrlsInQuery (u.queryBytes.take u.querylen)).foldl
        (fun acc fu =>
          if acc.fst then
            let r := url_query_step acc.snd.fst acc.snd.snd.fst
              acc.snd.snd.snd fu
            r
          else acc)
        (true, urls, url_set, part_urls)
      folded.snd
    else (urls, url_set, part_urls)
  match afterQuery.snd.snd with
  | some pl =>
    (afterQuery.fst, afterQuery.snd.fst, some (pl ++ [uidx]))
  | none => (afterQuery.fst, afterQuery.snd.fst, none)

/-! ### `rspamd_html_check_displayed_url` (html.cxx 1767-1840) -/

def rspamd_html_check_displayed_url (fns : LoopFns)
    (exceptions : Option (List ProcessException))
    (url_set : Option (List Nat)) (urls : List RspamdUrl)
    (dest : List Byte) (href_offset : Int) (uidx : Nat) :
    List RspamdUrl × Option (List ProcessException) × Option (List Nat) :=
  if href_offset < 0 then (urls, exceptions, url_set)
  else
    let off := href_offset.toNat
    let visible := fns.unicodeTrim (dest.drop off)
    let u0 := urls.getD uidx {}
    let pr := fns.urlIsPhished u0 visible
    let urls := setUrlAt urls uidx (fun u =>
      { u with visible_part := visible,
               flag_display := u.flag_display || pr.fst })
    let exceptions :=
      match exceptions with
      | some exl =>
        if pr.fst then
          some ({ pos := off, len := dest.length - off,
                  urlIdx := some uidx } :: exl)
        else some exl
      | none => none
    let setres :=
      match pr.snd, url_set with
      | some du, some s =>
        match urlSetFind urls s du with
        | some j =>
          (setUrlAt urls j (fun t =>
            let t := if t.flag_from_text then
                { t with flag_html_displayed := true,
                         flag_from_text := false }
              else t
            { t with count := t.count + 1 }), some s)
        | none => (urls ++ [du], some (s ++ [urls.length]))
      | _, _ => (urls, url_set)
    let urls := setUrlAt setres.fst uidx (fun u =>
      { u with visible_part := fns.normaliseUnicode u.visible_part })
    (urls, exceptions, setres.snd)

/-! ### `rspamd_html_process_img_tag` (html.cxx 964-1182) -/

/-- `struct html_image` (the fields written here). -/
structure HtmlImage where
  tagIdx : Option Nat := none
  src : List Byte := []
  flag_embedded : Bool := false
  flag_data : Bool := false
  flag_external : Bool := false
  url : Option Nat := none
  embedded_image : Option (Nat × Nat) := none
  height : Nat := 0
  width : Nat := 0
deriving DecidableEq, Repr

/-- `rspamd_html_process_data_image` (html.cxx 964-1013): detect
`...;base64,` payloads and hand them to the external image detector. -/
def rspamd_html_process_data_image (fns : LoopFns) (img : HtmlImage)
    (srcv : List Byte) : HtmlImage :=
  match findSub srcv [59] with
  | none => img
  | some k =>
    if srcv.length - k > 8 then
      if (strBytes "base64,").isPrefixOf (srcv.drop (k + 1)) then
        let decoded := fns.base64Decode (srcv.drop (k + 8))
        match fns.maybeImage decoded with
        | some wh => { img with embedded_image := some wh }
        | none => img
      else img
    else img

def findSubCaseless (hay pat : List Byte) : Option Nat :=
  findSub (hay.map (fun b => g_ascii_tolower b))
    (pat.map (fun b => g_ascii_tolower b))

/-- The digit scan after a `height`/`width` match inside a style
attribute (html.cxx 1104-1119): skip spaces, `=` and `:`; parse at the
first digit; bail out on anything else.  `valPrev` models the reuse of
the uninitialized `val` local when `rspamd_strtoul` fails. -/
def imgDimScan (v : List Byte) (valPrev : Nat) : Nat → Nat → Option Nat
  | 0, _ => none
  | fuel + 1, p =>
    if p < v.length then
      let b := v.getD p 0
      if g_ascii_isdigit b then
        some ((rspamd_strtoul (v.drop p)).getD valPrev)
      else if !(g_ascii_isspace b) && b != 61 && b != 58 then none
      else imgDimScan v valPrev fuel (p + 1)
    else none

/-- Accumulator of the img-tag attribute walk. -/
structure ImgAcc where
  img : HtmlImage := {}
  hcFlags : HcFlags := {}
  urls : List RspamdUrl := []
  url_set : Option (List Nat) := none
  part_urls : Option (List Nat) := none
  dest : Option (List Byte) := none
  seen_width : Bool := false
  seen_height : Bool := false
  val : Nat := 0
deriving Repr

/-- One attribute of an img tag (the switch of html.cxx 1034-1160). -/
def imgParamStep (fns : LoopFns) (acc : ImgAcc)
    (kv : html_component_type × List Byte) : ImgAcc :=
  match kv.fst with
  | html_component_type.HREF =>
    if kv.snd.length > 0 then
      let acc := { acc with img := { acc.img with src := kv.snd } }
      if kv.snd.length > 4 && (strBytes "cid:").isPrefixOf kv.snd then
        { acc with img := { acc.img with flag_embedded := true } }
      else if kv.snd.length > 5 && (strBytes "data:").isPrefixOf kv.snd then
        { acc with
          img := rspamd_html_process_data_image fns
            { acc.img with flag_embedded := true, flag_data := true } kv.snd,
          hcFlags := { acc.hcFlags with has_data_urls := true } }
      else
        let acc := { acc with
          img := { acc.img with flag_external := true } }
        match rspamd_html_process_url fns.urlParse acc.img.src with
        | none => acc
        | some u =>
          let u := { u with flag_image := true }
          let nidx := acc.urls.length
          let urls := acc.urls ++ [u]
          match acc.url_set with
          | some s =>
            match urlSetFind urls s u with
            | some j =>
              { acc with
                img := { acc.img with url := some nidx },
                urls := setUrlAt urls j (fun t =>
                  { t with
                    flag_no_tld := t.flag_no_tld || u.flag_no_tld,
                    flag_obscured := t.flag_obscured || u.flag_obscured,
                    flag_schemaless := t.flag_schemaless || u.flag_schemaless,
                    flag_query := t.flag_query || u.flag_query,
                    flag_image := t.flag_image || u.flag_image,
                    flag_display := t.flag_display || u.flag_display,
                    flag_from_text := t.flag_from_text || u.flag_from_text,
                    flag_html_displayed :=
                      t.flag_html_displayed || u.flag_html_displayed,
                    count := t.count + 1 }) }
            | none =>
              let acc := { acc with
                img := { acc.img with url := some nidx },
                urls := urls, url_set := some (s ++ [nidx]) }
              match acc.part_urls with
              | some pl => { acc with part_urls := some (pl ++ [nidx]) }
              | none => acc
          | none =>
            let acc := { acc with
              img := { acc.img with url := some nidx }, urls := urls }
            match acc.part_urls with
            | some pl => { acc with part_urls := some (pl ++ [nidx]) }
            | none => acc
    else acc
  | html_component_type.HEIGHT =>
    let v := (rspamd_strtoul kv.snd).getD acc.val
    { acc with img := { acc.img with height := v }, val := v,
               seen_height := true }
  | html_component_type.WIDTH =>
    let v := (rspamd_strtoul kv.snd).getD acc.val
    { acc with img := { acc.img with width := v }, val := v,
               seen_width := true }
  | html_component_type.STYLE =>
    let acc :=
      if !acc.seen_height && kv.snd.length > 0 then
        match findSubCaseless kv.snd (strBytes "height") with
        | some pos =>
          match imgDimScan kv.snd acc.val (kv.snd.length + 1) (pos + 6) with
          | some v =>
            { acc with img := { acc.img with height := v }, val := v }
          | none => acc
        | none => acc
      else acc
    if !acc.seen_width && kv.snd.length > 0 then
      match findSubCaseless kv.snd (strBytes "width") with
      | some pos =>
        match imgDimScan kv.snd acc.val (kv.snd.length + 1) (pos + 5) with
        | some v =>
          { acc with img := { acc.img with width := v }, val := v }
        | none => acc
      | none => acc
    else acc
  | html_component_type.ALT =>
    if kv.snd.length > 0 then
      match acc.dest with
      | some d =>
        let d := if d.length > 0 &&
            !(g_ascii_isspace (d.getD (d.length - 1) 0)) then
            d ++ [32]
          else d
        let d := d ++ kv.snd
        let d := if !(g_ascii_isspace (d.getD (d.length - 1) 0)) then
            d ++ [32]
          else d
        { acc with dest := some d }
      | none => acc
    else acc
  | _ => acc

/-- `rspamd_html_process_img_tag`: walk the attributes, then adopt the
embedded image\'s dimensions when the attributes did not give any. -/
def rspamd_html_process_img_tag (fns : LoopFns) (tag : HtmlTag)
    (tagIdx : Nat) (hcFlags : HcFlags) (urls : List RspamdUrl)
    (url_set : Option (List Nat)) (part_urls : Option (List Nat))
    (dest : Option (List Byte)) : ImgAcc :=
  let acc0 : ImgAcc :=
    { img := { tagIdx := some tagIdx }, hcFlags := hcFlags, urls := urls,
      url_set := url_set, part_urls := part_urls, dest := dest }
  let acc := tag.params.foldl (fun a kv => imgParamStep fns a kv) acc0
  match acc.img.embedded_image with
  | some wh =>
    let acc := if !acc.seen_height then
        { acc with img := { acc.img with height := wh.snd } }
      else acc
    if !acc.seen_width then
      { acc with img := { acc.img with width := wh.fst } }
    else acc
  | none => acc

/-- `rspamd_html_process_link_tag` (html.cxx 1184-1206): a
`rel="icon"` link is processed as an image with no text output. -/
def rspamd_html_process_link_tag (fns : LoopFns) (tag : HtmlTag)
    (tagIdx : Nat) (hcFlags : HcFlags) (urls : List RspamdUrl)
    (url_set : Option (List Nat)) (part_urls : Option (List Nat)) :
    Option ImgAcc :=
  tag.params.foldl
    (fun acc kv =>
      if kv.fst == html_component_type.REL && kv.snd.length > 0 then
        if kv.snd.length == 4 &&
            kv.snd.map (fun b => g_ascii_tolower b) == strBytes "icon" then
          match acc with
          | some a =>
            some (rspamd_html_process_img_tag fns tag tagIdx a.hcFlags
              a.urls a.url_set a.part_urls none)
          | none =>
            some (rspamd_html_process_img_tag fns tag tagIdx hcFlags
              urls url_set part_urls none)
        else acc
      else acc)
    none

/-! ### The main parsing loop of `rspamd_html_process_part_full`
(html.cxx 1939-2581) -/

/-- The loop states (html.cxx 1960-1976). -/
inductive PartParserState where
  | parse_start | tag_begin | sgml_tag | xml_tag | compound_tag
  | comment_tag | comment_content | sgml_content | tag_content | tag_end
  | xml_tag_end | content_ignore | content_write | content_style
  | content_ignore_sp
deriving DecidableEq, Repr

/-- All mutable state of `rspamd_html_process_part_full`: the loop
locals, the destination buffer, and the content root\'s fields (tree and
arena in `ts`, tags seen, blocks, images, urls, base url, css).
`cur_url` is the function-level `url` local; urls live in an arena and
the URL set / part_urls / styles queue hold arena indices. -/
structure PartState where
  p : Nat := 0
  c : Nat := 0
  pstate : PartParserState := PartParserState.parse_start
  env : TagParserEnv := {}
  closing : Bool := false
  need_decode : Bool := false
  save_space : Bool := false
  dest : List Byte := []
  obrace : Nat := 0
  ebrace : Nat := 0
  href_offset : Int := -1
  cur_tag : Option HtmlTag := none
  content_tag : Option Nat := none
  cur_url : Option Nat := none
  ts : TreeState := {}
  tags_seen : List Int := []
  bgcolor : HtmlColor := initial_bgcolor
  blocks : List HtmlBlock := []
  images : List HtmlImage := []
  urls : List RspamdUrl := []
  base_url : Option Nat := none
  styles_blocks : List Nat := []
  css_style : Nat := 0
  url_set : Option (List Nat) := none
  part_urls : Option (List Nat) := none
  exceptions : Option (List ProcessException) := none
deriving DecidableEq, Repr

/-- The two content-flush blocks of `content_write`
(html.cxx 2172-2202 and 2235-2267): append the pending range, entity
decoding it when `need_decode`, and maintain the content tag\'s offset
and length. -/
def flush_block (fns : LoopFns) (input : List Byte) (c p : Nat)
    (need_decode : Bool) (ts : TreeState) (content_tag : Option Nat)
    (dest : List Byte) : TreeState × List Byte :=
  if need_decode then
    let old_offset := dest.length
    let ts :=
      match content_tag with
      | some ci =>
        if (ts.tags.getD ci {}).content_length == 0 then
          setTagAt ts ci (fun t => { t with content_offset := old_offset })
        else ts
      | none => ts
    let decoded := fns.ext.decodeEntities (inputSlice input c p)
    let dest := dest ++ decoded
    let ts :=
      match content_tag with
      | some ci => setTagAt ts ci (fun t =>
          { t with content_length := t.content_length + decoded.length })
      | none => ts
    (ts, dest)
  else
    let len := p - c
    let ts :=
      match content_tag with
      | some ci =>
        if (ts.tags.getD ci {}).content_length == 0 then
          setTagAt ts ci (fun t =>
            { t with
              content_offset := dest.length,
              content_length := t.content_length + len })
        else
          setTagAt ts ci (fun t =>
            { t with content_length := t.content_length + len })
      | none => ts
    (ts, dest ++ inputSlice input c p)

/-- The `\r\n` append of `tag_end` (html.cxx 2392-2410 and
2417-2435): only when the visible text is non-empty and does not
already end in a newline; the content tag tracks the two bytes. -/
def newline_append (ts : TreeState) (content_tag : Option Nat)
    (dest : List Byte) : TreeState × List Byte :=
  if dest.length > 0 && dest.getD (dest.length - 1) 0 != 10 then
    let dest := dest ++ [13, 10]
    match content_tag with
    | some ci =>
      if (ts.tags.getD ci {}).content_length == 0 then
        (setTagAt ts ci (fun t => { t with content_offset := dest.length }),
         dest)
      else
        (setTagAt ts ci (fun t =>
          { t with content_length := t.content_length + 2 }), dest)
    | none => (ts, dest)
  else (ts, dest)

/-- The previous sibling of a tree node (`cur_level->prev`). -/
def node_prev_sibling (tree : List GNode) (idx : Nat) : Option Nat :=
  match (tree.getD idx {}).parent with
  | none => none
  | some pi =>
    let ch := (tree.getD pi {}).children
    match ch.findIdx? (fun x => x == idx) with
    | some k => if k == 0 then none else some (ch.getD (k - 1) 0)
    | none => none

/-- The href/base section of `tag_end` (html.cxx 2439-2515). -/
def hrefSection (fns : LoopFns) (st : PartState) (idx : Nat)
    (tagNow : HtmlTag) : PartState :=
  if tagNow.flags.fl_href then
    let st :=
      if !tagNow.flags.fl_closing then
        let burl := st.base_url.map (fun i => st.urls.getD i {})
        match rspamd_html_process_url_tag fns tagNow burl with
        | some u =>
          let uidx := st.urls.length
          let st := { st with urls := st.urls ++ [u] }
          let st :=
            if tagNow.extraUrl = none ∧ tagNow.extraImage = none ∧
                tagNow.extraBlock = none then
              { st with
                ts := setTagAt st.ts idx (fun t =>
                  { t with extraUrl := some uidx }) }
            else st
          let st :=
            match st.url_set with
            | some s =>
              match urlSetFind st.urls s u with
              | none =>
                let st := { st with
                  url_set := some (s ++ [uidx]),
                  cur_url := some uidx }
                let r := rspamd_process_html_url fns st.urls uidx
                  st.url_set st.part_urls
                { st with
                  urls := r.fst, url_set := r.snd.fst,
                  part_urls := r.snd.snd }
              | some j =>
                { st with
                  cur_url := some j,
                  urls := setUrlAt st.urls j (fun t =>
                    { t with count := t.count + 1 }) }
            | none => { st with cur_url := some uidx }
          { st with href_offset := (st.dest.length : Int) }
        | none => { st with cur_url := none }
      else st
    if tagNow.id == Tag_A then
      let st :=
        if !st.ts.balanced then
          match st.ts.cur_level with
          | some cl =>
            match node_prev_sibling st.ts.tree cl with
            | some pv =>
              match (st.ts.tree.getD pv {}).tagIdx with
              | some pti =>
                let ptag := st.ts.tags.getD pti {}
                if ptag.id == Tag_A && !ptag.flags.fl_closing then
                  match ptag.extraUrl with
                  | some pu =>
                    let r := rspamd_html_check_displayed_url fns
                      st.exceptions st.url_set st.urls st.dest
                      st.href_offset pu
                    { st with
                      urls := r.fst, exceptions := r.snd.fst,
                      url_set := r.snd.snd }
                  | none => st
                else st
              | none => st
            | none => st
          | none => st
        else st
      if tagNow.flags.fl_closing then
        let st :=
          match st.cur_url with
          | some cu =>
            if (st.dest.length : Int) > st.href_offset then
              let r := rspamd_html_check_displayed_url fns st.exceptions
                st.url_set st.urls st.dest st.href_offset cu
              { st with
                urls := r.fst, exceptions := r.snd.fst,
                url_set := r.snd.snd }
            else st
          | none => st
        { st with href_offset := -1, cur_url := none }
      else st
    else st
  else if tagNow.id == Tag_BASE && !tagNow.flags.fl_closing then
    if st.base_url = none then
      match rspamd_html_process_url_tag fns tagNow none with
      | some u =>
        let uidx := st.urls.length
        { st with
          urls := st.urls ++ [u],
          base_url := some uidx,
          cur_url := some uidx,
          ts := setTagAt st.ts idx (fun t =>
            { t with
              extraUrl := some uidx,
              flags := { t.flags with fl_href := true } }) }
      | none => { st with cur_url := none }
    else st
  else st

/-- The visibility tail of the block handling (html.cxx 2542-2556):
mark the block non-visible when its propagated font size is below 3 or
its font alpha below 10, and switch to `content_ignore` when it is not
visible. -/
def visibilityTail (st : PartState) (bidx : Nat) : PartState :=
  let bl2 := st.blocks.getD bidx {}
  let st :=
    if bl2.font_size < 3 ∨ bl2.font_color.comp.alpha < 10 then
      { st with blocks := st.blocks.set bidx { bl2 with visible := false } }
    else st
  if !(st.blocks.getD bidx {}).visible then
    { st with pstate := PartParserState.content_ignore }
  else st

/-- The non-closing branch of the block handling in `tag_end`
(html.cxx 2533-2557): create the block from the attributes, propagate
style from the innermost open block, push it on the styles queue when
it contributed style, then run the visibility tail. -/
def blockOpenSection (fns : LoopFns) (st : PartState) (idx : Nat)
    (tagNow : HtmlTag) : PartState :=
  let pr := rspamd_html_process_block_tag fns.namedColor tagNow idx
    st.bgcolor
  let bidx := st.blocks.length
  let st := { st with
    blocks := st.blocks ++ [pr.fst],
    bgcolor := pr.snd,
    ts := setTagAt st.ts idx (fun t => { t with extraBlock := some bidx }) }
  let parent := st.styles_blocks.getLast?.map
    (fun i => st.blocks.getD i {})
  let pgr := rspamd_html_propagate_style st.bgcolor
    (st.blocks.getD bidx {}) parent
  let st := { st with
    blocks := st.blocks.set bidx pgr.fst,
    styles_blocks :=
      if pgr.snd && !tagNow.flags.fl_closed then
        st.styles_blocks ++ [bidx]
      else st.styles_blocks }
  visibilityTail st bidx

/-- The img/link/block section of `tag_end` (html.cxx 2517-2558). -/
def mediaSection (fns : LoopFns) (st : PartState) (idx : Nat)
    (tagNow : HtmlTag) : PartState :=
  if tagNow.id == Tag_IMG && !tagNow.flags.fl_closing then
    let acc := rspamd_html_process_img_tag fns tagNow idx st.ts.hcFlags
      st.urls st.url_set st.part_urls (some st.dest)
    let iidx := st.images.length
    { st with
      images := st.images ++ [acc.img],
      urls := acc.urls, url_set := acc.url_set, part_urls := acc.part_urls,
      dest := acc.dest.getD st.dest,
      ts := setTagAt { st.ts with hcFlags := acc.hcFlags } idx (fun t =>
        { t with
          flags := { t.flags with fl_image := true },
          extraImage := some iidx }) }
  else if tagNow.id == Tag_LINK && !tagNow.flags.fl_closing then
    match rspamd_html_process_link_tag fns tagNow idx st.ts.hcFlags
        st.urls st.url_set st.part_urls with
    | some acc =>
      let iidx := st.images.length
      { st with
        images := st.images ++ [acc.img],
        urls := acc.urls, url_set := acc.url_set, part_urls := acc.part_urls,
        ts := setTagAt { st.ts with hcFlags := acc.hcFlags } idx (fun t =>
          { t with
            flags := { t.flags with fl_image := true },
            extraImage := some iidx }) }
    | none => st
  else if tagNow.flags.fl_block then
    if tagNow.flags.fl_closing then
      if st.styles_blocks.length > 0 then
        { st with styles_blocks := st.styles_blocks.dropLast }
      else st
    else blockOpenSection fns st idx tagNow
  else st

/-- The `tag_end` case (html.cxx 2356-2568). -/
def tagEndStep (fns : LoopFns) (st : PartState) : PartState :=
  let st := { st with env := {} }
  match st.cur_tag with
  | none =>
    { st with
      pstate := PartParserState.content_write,
      p := st.p + 1, c := st.p + 1, cur_tag := none }
  | some tg =>
    let ts := { st.ts with balanced := true }
    let r := rspamd_html_process_tag ts tg
    let ts := r.snd.fst
    let idx := r.snd.snd
    let tagNow := ts.tags.getD idx {}
    let st := { st with ts := ts }
    let st :=
      if r.fst then
        { st with
          pstate := PartParserState.content_write,
          need_decode := false }
      else if tagNow.id == Tag_STYLE then
        { st with pstate := PartParserState.content_style }
      else { st with pstate := PartParserState.content_ignore }
    let st :=
      if tagNow.id != -1 && tagNow.id < N_TAGS then
        let st :=
          if tagNow.flags.cm_unique && st.tags_seen.contains tagNow.id then
            { st with ts := { st.ts with hcFlags :=
                { st.ts.hcFlags with duplicate_elements := true } } }
          else st
        if st.tags_seen.contains tagNow.id then st
        else { st with tags_seen := st.tags_seen ++ [tagNow.id] }
      else st
    let st :=
      if !(tagNow.flags.fl_closed || tagNow.flags.fl_closing) then
        { st with content_tag := some idx }
      else st
    let st :=
      if tagNow.id == Tag_BR || tagNow.id == Tag_HR then
        let r2 := newline_append st.ts st.content_tag st.dest
        { st with ts := r2.fst, dest := r2.snd, save_space := false }
      else st
    let st :=
      if tagNow.id == Tag_P || tagNow.id == Tag_TR ||
          tagNow.id == Tag_DIV then
        let r2 := newline_append st.ts st.content_tag st.dest
        { st with ts := r2.fst, dest := r2.snd, save_space := false }
      else st
    let st := hrefSection fns st idx tagNow
    let st := mediaSection fns st idx tagNow
    { st with p := st.p + 1, c := st.p + 1, cur_tag := none }

/-- One iteration of the `while (p < end)` loop (html.cxx 1998-2570). -/
def processPartStep (fns : LoopFns) (allow_css : Bool)
    (input : List Byte) (st : PartState) : PartState :=
  let t := input.getD st.p 0
  match st.pstate with
  | PartParserState.parse_start =>
    if t == 60 then { st with pstate := PartParserState.tag_begin }
    else { st with
      ts := { st.ts with hcFlags := { st.ts.hcFlags with bad_start := true } },
      pstate := PartParserState.content_write }
  | PartParserState.tag_begin =>
    if t == 60 then { st with p := st.p + 1, closing := false }
    else if t == 33 then
      { st with pstate := PartParserState.sgml_tag, p := st.p + 1 }
    else if t == 63 then
      { st with
        pstate := PartParserState.xml_tag,
        ts := { st.ts with hcFlags := { st.ts.hcFlags with xml := true } },
        p := st.p + 1 }
    else if t == 47 then { st with closing := true, p := st.p + 1 }
    else if t == 62 then
      { st with
        ts := { st.ts with hcFlags :=
          { st.ts.hcFlags with bad_elements := true } },
        pstate := PartParserState.tag_end }
    else
      { st with
        pstate := PartParserState.tag_content, env := {},
        cur_tag := some { id := 0 } }
  | PartParserState.sgml_tag =>
    if t == 91 then
      { st with
        pstate := PartParserState.compound_tag,
        obrace := 1, ebrace := 0, p := st.p + 1 }
    else if t == 45 then
      { st with pstate := PartParserState.comment_tag, p := st.p + 1 }
    else { st with pstate := PartParserState.sgml_content }
  | PartParserState.xml_tag =>
    if t == 63 then
      { st with pstate := PartParserState.xml_tag_end, p := st.p + 1 }
    else if t == 62 then
      { st with
        ts := { st.ts with hcFlags :=
          { st.ts.hcFlags with bad_elements := true } },
        pstate := PartParserState.tag_end }
    else { st with p := st.p + 1 }
  | PartParserState.xml_tag_end =>
    if t == 62 then { st with pstate := PartParserState.tag_end }
    else
      { st with
        ts := { st.ts with hcFlags :=
          { st.ts.hcFlags with bad_elements := true } },
        p := st.p + 1 }
  | PartParserState.compound_tag =>
    if t == 91 then { st with obrace := st.obrace + 1, p := st.p + 1 }
    else if t == 93 then { st with ebrace := st.ebrace + 1, p := st.p + 1 }
    else if t == 62 && st.obrace == st.ebrace then
      { st with pstate := PartParserState.tag_end }
    else { st with p := st.p + 1 }
  | PartParserState.comment_tag =>
    if t != 45 then
      { st with
        ts := { st.ts with hcFlags :=
          { st.ts.hcFlags with bad_elements := true } },
        pstate := PartParserState.tag_end }
    else
      let p := st.p + 1
      let st := { st with p := p, ebrace := 0 }
      if input.getD p 0 == 45 && p + 1 < input.length &&
          input.getD (p + 1) 0 == 62 then
        { st with
          p := p + 1,
          ts := { st.ts with hcFlags :=
            { st.ts.hcFlags with bad_elements := true } },
          pstate := PartParserState.tag_end }
      else if input.getD p 0 == 62 then
        { st with
          ts := { st.ts with hcFlags :=
            { st.ts.hcFlags with bad_elements := true } },
          pstate := PartParserState.tag_end }
      else { st with pstate := PartParserState.comment_content }
  | PartParserState.comment_content =>
    if t == 45 then { st with ebrace := st.ebrace + 1, p := st.p + 1 }
    else if t == 62 && st.ebrace ≥ 2 then
      { st with pstate := PartParserState.tag_end }
    else { st with ebrace := 0, p := st.p + 1 }
  | PartParserState.content_ignore =>
    if t != 60 then { st with p := st.p + 1 }
    else { st with pstate := PartParserState.tag_begin }
  | PartParserState.content_write =>
    if t != 60 then
      if t == 38 then { st with need_decode := true, p := st.p + 1 }
      else if g_ascii_isspace t then
        let st := { st with save_space := true }
        let st :=
          if st.p > st.c then
            let r := flush_block fns input st.c st.p st.need_decode st.ts
              st.content_tag st.dest
            { st with ts := r.fst, dest := r.snd }
          else st
        { st with
          c := st.p, pstate := PartParserState.content_ignore_sp,
          p := st.p + 1 }
      else
        let st :=
          if st.save_space then
            let st :=
              if st.dest.length > 0 &&
                  !(g_ascii_isspace (st.dest.getD (st.dest.length - 1) 0))
                  then
                let dest := st.dest ++ [32]
                let ts :=
                  match st.content_tag with
                  | some ci =>
                    if (st.ts.tags.getD ci {}).content_length == 0 then
                      setTagAt st.ts ci (fun tg =>
                        { tg with content_offset := dest.length })
                    else
                      setTagAt st.ts ci (fun tg =>
                        { tg with content_length := tg.content_length + 1 })
                  | none => st.ts
                { st with dest := dest, ts := ts }
              else st
            { st with save_space := false }
          else st
        { st with p := st.p + 1 }
    else
      let st :=
        if st.c != st.p then
          let r := flush_block fns input st.c st.p st.need_decode st.ts
            st.content_tag st.dest
          { st with ts := r.fst, dest := r.snd }
        else st
      { st with content_tag := none, pstate := PartParserState.tag_begin }
  | PartParserState.content_style =>
    match findSub (inputSlice input st.p input.length) (strBytes "</") with
    | none => { st with pstate := PartParserState.content_ignore }
    | some k =>
      if g_ascii_tolower (input.getD (st.p + k + 2) 0) != 115 then
        { st with pstate := PartParserState.content_ignore }
      else
        let st :=
          if allow_css then
            { st with css_style :=
                fns.cssParse (inputSlice input st.p (st.p + k)) st.css_style }
          else st
        { st with p := st.p + k, pstate := PartParserState.tag_begin }
  | PartParserState.content_ignore_sp =>
    if !(g_ascii_isspace t) then
      { st with c := st.p, pstate := PartParserState.content_write }
    else { st with p := st.p + 1 }
  | PartParserState.sgml_content =>
    if t == 62 then
      { st with pstate := PartParserState.tag_end, cur_tag := none }
    else { st with p := st.p + 1 }
  | PartParserState.tag_content =>
    match st.cur_tag with
    | some tg =>
      let r := parse_tag_content fns.ext input st.p st.ts.hcFlags tg st.env
      let st := { st with
        cur_tag := some r.tag, env := r.env,
        ts := { st.ts with hcFlags := r.hcFlags } }
      if t == 62 then
        let st :=
          if st.closing then
            let tg2 := st.cur_tag.getD {}
            let hcf :=
              if tg2.flags.fl_closed then
                { st.ts.hcFlags with bad_elements := true }
              else st.ts.hcFlags
            { st with
              cur_tag := some { tg2 with
                                flags := { tg2.flags with
                                           fl_closing := true } },
              closing := false,
              ts := { st.ts with hcFlags := hcf } }
          else st
        { st with pstate := PartParserState.tag_end }
      else { st with p := st.p + 1 }
    | none => { st with p := st.p + 1 }
  | PartParserState.tag_end => tagEndStep fns st

/-- The fueled `while (p < end)` driver. -/
def processPartLoop (fns : LoopFns) (allow_css : Bool)
    (input : List Byte) : Nat → PartState → PartState
  | 0, st => st
  | fuel + 1, st =>
    if st.p < input.length then
      processPartLoop fns allow_css input fuel
        (processPartStep fns allow_css input st)
    else st

/-- `rspamd_html_propagate_lengths` under `g_node_traverse(G_POST_ORDER)`
(html.cxx 1842-1859, 2572-2575): each tag sums its children\'s content
lengths, children first. -/
def propagate_lengths_node (ts : TreeState) : Nat → Nat → TreeState
  | 0, _ => ts
  | fuel + 1, idx =>
    let nd := ts.tree.getD idx {}
    let ts := nd.children.foldl
      (fun a ci => propagate_lengths_node a fuel ci) ts
    match nd.tagIdx with
    | some ti =>
      let add := nd.children.foldl
        (fun s ci =>
          match (ts.tree.getD ci {}).tagIdx with
          | some cti => s + (ts.tags.getD cti {}).content_length
          | none => s) 0
      setTagAt ts ti (fun t =>
        { t with content_length := t.content_length + add })
    | none => ts

/-- `rspamd_html_process_part_full` (html.cxx 1939-2581). -/
def rspamd_html_process_part_full (fns : LoopFns) (input : List Byte)
    (exceptions : Option (List ProcessException))
    (url_set : Option (List Nat)) (part_urls : Option (List Nat))
    (allow_css : Bool) : PartState :=
  let st0 : PartState := { exceptions := exceptions, url_set := url_set,
                           part_urls := part_urls,
                           bgcolor := initial_bgcolor }
  let st := processPartLoop fns allow_css input (5 * input.length + 10) st0
  if st.ts.tree ≠ [] then
    { st with ts := propagate_lengths_node st.ts (st.ts.tree.length + 1) 0 }
  else st

/-- `rspamd_html_process_part` (html.cxx 2583-2590): the full processor
with a null exceptions list, null URL set, null part_urls and CSS
parsing disabled. -/
def rspamd_html_process_part (fns : LoopFns) (input : List Byte) :
    PartState :=
  rspamd_html_process_part_full fns input none none none false

/-- C9: for every set of external collaborators and every input buffer,
`rspamd_html_process_part` produces exactly the state
`rspamd_html_process_part_full` produces when invoked with a null
exceptions list, null URL set, null part_urls and CSS parsing disabled:
the same visible-text buffer and the same content root. -/
theorem process_part_delegates (fns : LoopFns) (input : List Byte) :
    rspamd_html_process_part fns input =
      rspamd_html_process_part_full fns input none none none false := rfl

/-! ### Claim C6: the `\r\n` insertion at `tag_end` -/

/-- No two consecutive newline bytes anywhere in the buffer. -/
def noDoubleNewline (l : List Byte) : Prop :=
  ∀ i, i + 1 < l.length → ¬(l.getD i 0 = 10 ∧ l.getD (i + 1) 0 = 10)

theorem newline_append_characterization (ts : TreeState)
    (ct : Option Nat) (dest : List Byte) :
    (newline_append ts ct dest).snd =
      (if dest.length > 0 && dest.getD (dest.length - 1) 0 != 10 then
        dest ++ [13, 10]
      else dest) := by
  unfold newline_append
  split
  · cases ct with
    | none => rfl
    | some ci =>
      dsimp only
      split
      · rfl
      · rfl
  · rfl

theorem newline_append_no_double (ts : TreeState) (ct : Option Nat)
    (dest : List Byte) (h : noDoubleNewline dest) :
    noDoubleNewline (newline_append ts ct dest).snd := by
  rw [newline_append_characterization]
  split
  · next hcond =>
    intro i hi hpair
    simp only [List.length_append, List.length_cons, List.length_nil] at hi
    rcases Nat.lt_trichotomy (i + 1) dest.length with hlt | heq | hgt
    · have h1 : (dest ++ [13, 10]).getD i 0 = dest.getD i 0 :=
        List.getD_append _ _ _ _ (by omega)
      have h2 : (dest ++ [13, 10]).getD (i + 1) 0 = dest.getD (i + 1) 0 :=
        List.getD_append _ _ _ _ hlt
      exact h i hlt ⟨by rw [← h1]; exact hpair.1, by rw [← h2]; exact hpair.2⟩
    · -- i = dest.length - 1: the first byte of the pair is dest's last
      simp only [Bool.and_eq_true, decide_eq_true_eq, bne_iff_ne,
        ne_eq] at hcond
      have hlast : (dest ++ [13, 10]).getD i 0 = dest.getD i 0 :=
        List.getD_append _ _ _ _ (by omega)
      have : i = dest.length - 1 := by omega
      rw [this] at hlast
      exact hcond.2 (by rw [← hlast, ← this]; exact hpair.1)
    · -- i ≥ dest.length: the byte at i is 13, not 10
      have h13 : (dest ++ [13, 10]).getD i 0 = 13 ∨ i ≥ dest.length + 1 := by
        rcases Nat.lt_or_ge i (dest.length + 1) with hh | hh
        · left
          have hieq : i = dest.length := by omega
          rw [hieq]
          rw [List.getD_append_right _ _ _ _ (le_refl _)]
          simp
        · right; exact hh
      rcases h13 with h13 | hge
      · rw [h13] at hpair
        exact absurd hpair.1 (by decide)
      · omega
  · intro i hi
    exact h i hi

def c6_fns : LoopFns :=
  { ext :=
    { decodeEntities := fun l =>
        if l = strBytes "hello&nbsp;world" then
          strBytes "hello" ++ [194, 160] ++ strBytes "world"
        else l,
      tagDefsByName := fun n =>
        if n = strBytes "p" then some (Tag_P, { fl_block := true })
        else none } }

/-- C6 counterexample: in `<p>x</p>` the only opening P token is emitted
while the visible text is still empty, so under the claim no `\r\n`
would ever be appended; the processor nevertheless appends one — for
the CLOSING `</p>` token, which html.cxx 2415-2436 does not
distinguish. -/
theorem closing_token_appends_newline :
    (rspamd_html_process_part c6_fns (strBytes "<p>x</p>")).dest =
      strBytes "x" ++ [13, 10] ∧
    (rspamd_html_process_part c6_fns (strBytes "<p>x</p>")).dest ≠
      strBytes "x" := by
  constructor
  · rfl
  · decide

/-- C6 (amended): at `tag_end` of a BR, HR, P, TR or DIV token —
closing as well as opening — `\r\n` is appended exactly when the
visible text is non-empty and its last byte is not a newline; the
insertion never creates two consecutive newlines; and processing
`<p>hello&nbsp;world</p>` yields the visible text
"hello world\r\n". -/
theorem newline_insertion_rule :
    (∀ (ts : TreeState) (ct : Option Nat) (dest : List Byte),
      (newline_append ts ct dest).snd =
        (if dest.length > 0 && dest.getD (dest.length - 1) 0 != 10 then
          dest ++ [13, 10]
        else dest)) ∧
    (∀ (ts : TreeState) (ct : Option Nat) (dest : List Byte),
      noDoubleNewline dest →
      noDoubleNewline (newline_append ts ct dest).snd) ∧
    (rspamd_html_process_part c6_fns
        (strBytes "<p>hello&nbsp;world</p>")).dest =
      strBytes "hello" ++ [194, 160] ++ strBytes "world" ++ [13, 10] := by
  refine ⟨newline_append_characterization, newline_append_no_double, ?_⟩
  rfl

def c6w_dest : List Byte := strBytes "ab"

theorem newline_insertion_rule_witness :
    noDoubleNewline c6w_dest ∧
    noDoubleNewline (newline_append {} none c6w_dest).snd := by
  have hnd : noDoubleNewline c6w_dest := by
    intro i hi
    have h2 : c6w_dest.length = 2 := rfl
    have h0 : i = 0 := by omega
    subst h0
    decide
  exact ⟨hnd, newline_insertion_rule.2.1 {} none c6w_dest hnd⟩

/-! ### Claim C7: invisible blocks suppress content -/

/-- The block of a non-closing block tag after attribute processing and
style propagation — the value the visibility check at html.cxx
2544-2545 examines. -/
def propagatedBlock (fns : LoopFns) (st : PartState) (idx : Nat)
    (tagNow : HtmlTag) : HtmlBlock :=
  let pr := rspamd_html_process_block_tag fns.namedColor tagNow idx
    st.bgcolor
  (rspamd_html_propagate_style pr.snd pr.fst
    (st.styles_blocks.getLast?.map
      (fun i => (st.blocks ++ [pr.fst]).getD i {}))).fst

theorem visibilityTail_marks (st : PartState) (bidx : Nat)
    (hlt : bidx < st.blocks.length)
    (h : (st.blocks.getD bidx {}).font_size < 3 ∨
      (st.blocks.getD bidx {}).font_color.comp.alpha < 10) :
    ((visibilityTail st bidx).blocks.getD bidx {}).visible = false ∧
    (visibilityTail st bidx).pstate = PartParserState.content_ignore := by
  unfold visibilityTail
  dsimp only
  rw [if_pos h]
  dsimp only
  have hset : (st.blocks.set bidx
      { st.blocks.getD bidx {} with visible := false }).getD bidx {} =
      { st.blocks.getD bidx {} with visible := false } :=
    getD_set_self _ _ _ _ hlt
  rw [hset]
  split
  · exact ⟨by dsimp only; rw [hset], rfl⟩
  · next hc => exact absurd rfl hc

theorem blockOpenSection_marks (fns : LoopFns) (st : PartState)
    (idx : Nat) (tagNow : HtmlTag)
    (hvis : (propagatedBlock fns st idx tagNow).font_size < 3 ∨
      (propagatedBlock fns st idx tagNow).font_color.comp.alpha < 10) :
    ((blockOpenSection fns st idx tagNow).blocks.getD st.blocks.length
      {}).visible = false ∧
    (blockOpenSection fns st idx tagNow).pstate =
      PartParserState.content_ignore := by
  obtain ⟨E, hE, hgetD, hlen⟩ :
      ∃ E, blockOpenSection fns st idx tagNow =
          visibilityTail E st.blocks.length ∧
        E.blocks.getD st.blocks.length {} =
          propagatedBlock fns st idx tagNow ∧
        st.blocks.length < E.blocks.length := by
    refine ⟨_, rfl, ?_, ?_⟩
    · dsimp only
      rw [getD_set_self _ _ _ _ (by simp)]
      unfold propagatedBlock
      dsimp only
      rw [getD_append_last]
    · dsimp only
      simp
  rw [hE]
  refine visibilityTail_marks E st.blocks.length hlen ?_
  rw [hgetD]
  exact hvis

theorem media_dispatch_block_open (fns : LoopFns) (st : PartState)
    (idx : Nat) (tagNow : HtmlTag)
    (hb : tagNow.flags.fl_block = true)
    (hcl : tagNow.flags.fl_closing = false)
    (hi : ¬ tagNow.id = Tag_IMG)
    (hl : ¬ tagNow.id = Tag_LINK) :
    mediaSection fns st idx tagNow = blockOpenSection fns st idx tagNow := by
  unfold mediaSection
  rw [if_neg (by simp [hi])]
  rw [if_neg (by simp [hl])]
  rw [if_pos hb]
  rw [if_neg (by simp [hcl])]

def c7_fns : LoopFns :=
  { ext := { tagDefsByName := fun n =>
      if n = strBytes "p" then some (Tag_P, { fl_block := true })
      else if n = strBytes "b" then some (20, { cm_inline := true })
      else none } }

def c7_red_input : List Byte :=
  strBytes "<p style=\"color:#ff0000;font-size:2px\">x</p>"

/-- C7 counterexample: in
`<p style="font-size:1px">a<b>c</b>` the `p` block is marked
non-visible, yet the enclosed byte `c` reaches the visible text before
any closing `</p>` appears — the suppression ended when the inner
`<b>` tag was processed successfully and the parser re-entered
`content_write`, so content is not suppressed "until the block\'s
closing tag". -/
theorem invisible_block_content_leaks :
    ((rspamd_html_process_part c7_fns
        (strBytes "<p style=\"font-size:1px\">a<b>c</b>")).blocks.getD 0
      {}).visible = false ∧
    (rspamd_html_process_part c7_fns
        (strBytes "<p style=\"font-size:1px\">a<b>c</b>")).dest =
      strBytes "c" :=
  ⟨rfl, rfl⟩

set_option maxRecDepth 16384 in
/-- C7 (amended): every non-closing block tag whose style, after
propagation from the innermost open block, yields font_size < 3 or
font alpha < 10, is marked non-visible and the parser switches to
content_ignore (suppression then lasts until the next tag that is
emitted successfully, not necessarily the block\'s closing tag); the
claim\'s own scenario `<p style="color:#ff0000;font-size:2px">x</p>`
yields one non-visible red block of size 2 and empty visible text. -/
theorem block_visibility_suppression :
    (∀ (fns : LoopFns) (st : PartState) (idx : Nat) (tagNow : HtmlTag),
      tagNow.flags.fl_block = true →
      tagNow.flags.fl_closing = false →
      ¬ tagNow.id = Tag_IMG →
      ¬ tagNow.id = Tag_LINK →
      ((propagatedBlock fns st idx tagNow).font_size < 3 ∨
        (propagatedBlock fns st idx tagNow).font_color.comp.alpha < 10) →
      ((mediaSection fns st idx tagNow).blocks.getD st.blocks.length
        {}).visible = false ∧
      (mediaSection fns st idx tagNow).pstate =
        PartParserState.content_ignore) ∧
    (rspamd_html_process_part c7_fns c7_red_input).dest = [] ∧
    ((rspamd_html_process_part c7_fns c7_red_input).blocks.getD 0
      {}).visible = false ∧
    ((rspamd_html_process_part c7_fns c7_red_input).blocks.getD 0
      {}).font_size = 2 ∧
    ((rspamd_html_process_part c7_fns c7_red_input).blocks.getD 0
      {}).font_color.comp =
      { r := 255, g := 0, b := 0, alpha := 255 } := by
  refine ⟨?_, rfl, rfl, rfl, rfl⟩
  intro fns st idx tagNow hb hcl hi hl hvis
  rw [media_dispatch_block_open fns st idx tagNow hb hcl hi hl]
  exact blockOpenSection_marks fns st idx tagNow hvis

def c7w_tag : HtmlTag :=
  { id := Tag_P, flags := { fl_block := true },
    params := [(html_component_type.STYLE, strBytes "font-size:1px")] }

theorem block_visibility_suppression_witness :
    c7w_tag.flags.fl_block = true ∧
    c7w_tag.flags.fl_closing = false ∧
    ¬ c7w_tag.id = Tag_IMG ∧
    (propagatedBlock c7_fns {} 0 c7w_tag).font_size < 3 ∧
    ((mediaSection c7_fns {} 0 c7w_tag).blocks.getD 0 {}).visible =
      false ∧
    (mediaSection c7_fns {} 0 c7w_tag).pstate =
      PartParserState.content_ignore := by
  have h := block_visibility_suppression.1 c7_fns {} 0 c7w_tag rfl rfl
    (by decide) (by decide) (Or.inl (by decide))
  exact ⟨rfl, rfl, by decide, by decide, h.1, h.2⟩

end RspamdHtml
